import Mathlib

/-!
# RDMA basic server (`01_basic-client-server/server.c`)

A shallow embedding of the passive side of the basic RDMA client/server example.
The verbs / connection-manager library, `malloc`, `free` and the peer are an
environment (`Mock`) that decides every return value; the program is a state
transformer over `World` whose `trace` records every library call, in order,
together with the value it returned.
-/

namespace RdmaServer

/-! ## Constants -/

/-- Size of the send and of the receive buffer (`const int BUFFER_SIZE = 1024`). -/
def BUFFER_SIZE : Nat := 1024

/-- Value of `EXIT_FAILURE` in `<stdlib.h>`. -/
def EXIT_FAILURE : Int := 1

/-- Value of the enumerator `IBV_WC_SUCCESS` in `<infiniband/verbs.h>`. -/
def IBV_WC_SUCCESS : Nat := 0

/-- Value of the enumerator `IBV_WC_SEND` in `<infiniband/verbs.h>`. -/
def IBV_WC_SEND : Nat := 0

/-- Value of the enumerator `IBV_WC_RECV` in `<infiniband/verbs.h>` (`1 << 7`). -/
def IBV_WC_RECV : Nat := 128

/-- Value of the enumerator `IBV_WR_SEND` in `<infiniband/verbs.h>`. -/
def IBV_WR_SEND : Nat := 2

/-- Value of the enumerator `IBV_SEND_SIGNALED` in `<infiniband/verbs.h>` (`1 << 1`). -/
def IBV_SEND_SIGNALED : Nat := 2

/-- Value of the enumerator `IBV_ACCESS_LOCAL_WRITE` in `<infiniband/verbs.h>`. -/
def IBV_ACCESS_LOCAL_WRITE : Nat := 1

/-- Value of the enumerator `IBV_ACCESS_REMOTE_WRITE` in `<infiniband/verbs.h>`. -/
def IBV_ACCESS_REMOTE_WRITE : Nat := 2

/-- Value of the enumerator `IBV_QPT_RC` in `<infiniband/verbs.h>`. -/
def IBV_QPT_RC : Nat := 2

/-- Value of the enumerator `RDMA_PS_TCP` in `<rdma/rdma_cma.h>`. -/
def RDMA_PS_TCP : Nat := 0x0106

/-- Value of the enumerator `RDMA_CM_EVENT_CONNECT_REQUEST` in `<rdma/rdma_cma.h>`. -/
def RDMA_CM_EVENT_CONNECT_REQUEST : Nat := 4

/-- Value of the enumerator `RDMA_CM_EVENT_ESTABLISHED` in `<rdma/rdma_cma.h>`. -/
def RDMA_CM_EVENT_ESTABLISHED : Nat := 9

/-- Value of the enumerator `RDMA_CM_EVENT_DISCONNECTED` in `<rdma/rdma_cma.h>`. -/
def RDMA_CM_EVENT_DISCONNECTED : Nat := 10

/-! ## Data model

Pointers are addresses (`Nat`), `0` is `NULL`. -/

/-- The record `struct context`. -/
structure Context where
  ctx : Nat
  pd : Nat
  cq : Nat
  comp_channel : Nat
  cq_poller_thread : Nat
  deriving DecidableEq

/-- The record `struct connection`. -/
structure Connection where
  qp : Nat
  recv_mr : Nat
  send_mr : Nat
  recv_region : Nat
  send_region : Nat
  deriving DecidableEq

/-- The fields of `struct rdma_cm_id` that the program reads or writes. -/
structure CmId where
  verbs : Nat
  qp : Nat
  context : Nat
  deriving DecidableEq

/-- The fields of `struct rdma_cm_event` that the program reads: the identity
(address of its `rdma_cm_id`) and the event kind. -/
structure CmEvent where
  id : Nat
  event : Nat
  deriving DecidableEq

/-- The fields of `struct ibv_wc` that the program reads. -/
structure Wc where
  wr_id : Nat
  status : Nat
  opcode : Nat
  deriving DecidableEq

/-- The record `struct ibv_sge`. -/
structure Sge where
  addr : Nat
  length : Nat
  lkey : Nat
  deriving DecidableEq

/-- The record `struct ibv_recv_wr`. -/
structure RecvWr where
  wr_id : Nat
  next : Nat
  sg_list : Sge
  num_sge : Nat
  deriving DecidableEq

/-- The fields of `struct ibv_send_wr` that are not left zero by the program. -/
structure SendWr where
  wr_id : Nat
  next : Nat
  sg_list : Sge
  num_sge : Nat
  opcode : Nat
  send_flags : Nat
  deriving DecidableEq

/-- The fields of `struct ibv_qp_init_attr` set by `build_qp_attr`; all others are zero. -/
structure QpInitAttr where
  send_cq : Nat
  recv_cq : Nat
  qp_type : Nat
  max_send_wr : Nat
  max_recv_wr : Nat
  max_send_sge : Nat
  max_recv_sge : Nat
  deriving DecidableEq

/-- Argument of `malloc`: which object is being allocated. -/
inductive Size
  | context
  | connection
  | bytes (n : Nat)
  deriving DecidableEq

/-- Library calls made by the program, with the arguments that matter. -/
inductive Call
  | rdma_create_event_channel
  | rdma_create_id (ec : Nat) (ps : Nat)
  | rdma_bind_addr (id : Nat)
  | rdma_listen (id : Nat) (backlog : Nat)
  | rdma_get_src_port (id : Nat)
  | rdma_get_cm_event (ec : Nat)
  | rdma_ack_cm_event (event : CmEvent)
  | rdma_destroy_id (id : Nat)
  | rdma_destroy_event_channel (ec : Nat)
  | rdma_create_qp (id : Nat) (pd : Nat) (attr : QpInitAttr)
  | rdma_destroy_qp (id : Nat)
  | rdma_accept (id : Nat)
  | ibv_alloc_pd (ctx : Nat)
  | ibv_create_comp_channel (ctx : Nat)
  | ibv_create_cq (ctx : Nat) (cqe : Nat) (channel : Nat)
  | ibv_req_notify_cq (cq : Nat) (solicited_only : Nat)
  | ibv_get_cq_event (channel : Nat)
  | ibv_ack_cq_events (cq : Nat) (nevents : Nat)
  | ibv_poll_cq (cq : Nat) (num_entries : Nat)
  | ibv_reg_mr (pd : Nat) (addr : Nat) (length : Nat) (access : Nat)
  | ibv_dereg_mr (mr : Nat)
  | ibv_post_recv (qp : Nat) (wr : RecvWr)
  | ibv_post_send (qp : Nat) (wr : SendWr)
  | pthread_create
  | malloc (size : Size)
  | free (p : Nat)
  deriving DecidableEq

/-- Handlers whose invocation is recorded in the trace (instrumentation). -/
inductive Handler
  | on_completion (wc : Wc)
  | on_connect_request (id : Nat)
  | on_connection (context : Nat)
  | on_disconnect (id : Nat)
  deriving DecidableEq

/-- One trace entry: a library call with the value it returned (`0` for a
`void` function, the address for a pointer), or the entry into a handler. -/
inductive Entry
  | call (c : Call) (res : Int)
  | enter (h : Handler)
  deriving DecidableEq

/-- What the program writes to standard output. -/
inductive Printed
  | line (s : String)
  | listening (port : Nat)
  | received (msg : List Nat)
  deriving DecidableEq

/-- The environment: every value the program obtains from outside.  The call
that is made when the trace has `k` entries returns `status k` (an `int`) or
`handle k` (a pointer); a call with an output parameter stores `handle k`. -/
structure Mock where
  status : Nat → Int
  handle : Nat → Nat
  /-- Indeterminate value found at a freshly allocated address. -/
  junk : Nat → Nat
  /-- The field `lkey` of the `struct ibv_mr` at an address. -/
  lkey : Nat → Nat
  /-- Result of `getpid()`. -/
  pid : Int
  /-- The function `ntohs`. -/
  ntohs : Int → Nat

/-- The process state. -/
structure World where
  mock : Mock
  /-- The global `s_ctx`: `none` is `NULL`. -/
  s_ctx : Option Context
  /-- The `rdma_cm_id` records, by address. -/
  ids : Nat → CmId
  /-- Live `struct connection` objects, by address. -/
  conns : List (Nat × Connection)
  /-- Live byte buffers, by address. -/
  bufs : List (Nat × List Nat)
  trace : List Entry
  stdout : List Printed
  stderr : List String

/-- Invalid memory accesses (undefined behaviour in C). -/
inductive Fault
  /-- Dereference of `NULL` or of an address that holds no live object. -/
  | bad_pointer (p : Nat)
  /-- Access at offset `off` of the block at `base`, the block being `off` bytes long. -/
  | overrun (base : Nat) (off : Nat)
  deriving DecidableEq

/-- How a computation ends. -/
inductive Outcome (α : Type)
  /-- Normal return. -/
  | ret (a : α) (w : World)
  /-- The process ended through `exit(status)`. -/
  | exit (status : Int) (w : World)
  /-- Invalid memory access. -/
  | fault (f : Fault) (w : World)
  /-- Waiting forever in a blocking call. -/
  | blocked (w : World)

/-- The final state. -/
def Outcome.world : Outcome α → World
  | .ret _ w => w
  | .exit _ w => w
  | .fault _ w => w
  | .blocked w => w

/-- Whether the computation returned to its caller. -/
def Outcome.returned : Outcome α → Bool
  | .ret _ _ => true
  | _ => false

/-- Whether the process ended through `exit`. -/
def Outcome.exited : Outcome α → Bool
  | .exit _ _ => true
  | _ => false

/-- The returned value, if any. -/
def Outcome.value : Outcome α → Option α
  | .ret a _ => some a
  | _ => none

/-- Computations of the program. -/
def M (α : Type) : Type := World → Outcome α

/-- Return a value. -/
def M.pure (a : α) : M α := fun w => .ret a w

/-- Continue after an outcome: the rest runs only after a normal return. -/
def Outcome.bind (o : Outcome α) (f : α → World → Outcome β) : Outcome β :=
  match o with
  | .ret a w => f a w
  | .exit s w => .exit s w
  | .fault e w => .fault e w
  | .blocked w => .blocked w

/-- Sequencing. -/
def M.bind (m : M α) (f : α → M β) : M β := fun w => (m w).bind f

instance : Monad M where
  pure := M.pure
  bind := M.bind

/-! ## Heap -/

/-- The object stored at address `p`. -/
def heap_get (p : Nat) : List (Nat × β) → Option β
  | [] => none
  | (q, v) :: h => if q = p then some v else heap_get p h

/-- Overwrite the object stored at address `p`. -/
def heap_set (p : Nat) (v : β) : List (Nat × β) → List (Nat × β)
  | [] => []
  | (q, u) :: h => if q = p then (q, v) :: h else (q, u) :: heap_set p v h

/-- Release the object stored at address `p`. -/
def heap_free (p : Nat) : List (Nat × β) → List (Nat × β)
  | [] => []
  | (q, u) :: h => if q = p then h else (q, u) :: heap_free p h

/-! ## Primitive steps -/

/-- Append an entry to the trace. -/
def log (e : Entry) : M Unit := fun w =>
  .ret () { w with trace := w.trace ++ [e] }

/-- A library call returning `int`. -/
def call (c : Call) : M Int := fun w =>
  .ret (w.mock.status w.trace.length)
    { w with trace := w.trace ++ [.call c (w.mock.status w.trace.length)] }

/-- A library call returning `int` and storing a pointer through an output parameter. -/
def callo (c : Call) : M (Int × Nat) := fun w =>
  .ret (w.mock.status w.trace.length, w.mock.handle w.trace.length)
    { w with trace := w.trace ++ [.call c (w.mock.status w.trace.length)] }

/-- A library call returning a pointer. -/
def callp (c : Call) : M Nat := fun w =>
  .ret (w.mock.handle w.trace.length)
    { w with trace := w.trace ++ [.call c (w.mock.handle w.trace.length)] }

/-- A library call returning `void`. -/
def callv (c : Call) : M Unit := fun w =>
  .ret () { w with trace := w.trace ++ [.call c 0] }

/-- Wrapper for `printf`. -/
def print (p : Printed) : M Unit := fun w =>
  .ret () { w with stdout := w.stdout ++ [p] }

/-- Invalid memory access. -/
def fault (f : Fault) : M α := fun w => .fault f w

/-- Wait forever. -/
def block : M α := fun w => .blocked w

/-- The function `die`: print the reason to standard error, `exit(EXIT_FAILURE)`. -/
def die (reason : String) : M α := fun w =>
  .exit EXIT_FAILURE { w with stderr := w.stderr ++ [reason] }

/-- The macro `TEST_NZ(x)`: evaluate `x`, `die` when its value is non-zero.
`text` is the source text of `x`. -/
def TEST_NZ (x : M Int) (text : String) : M Unit := do
  let r ← x
  if r ≠ 0 then die ("error: " ++ text ++ " failed (returned non-zero).") else pure ()

/-- The macro `TEST_NZ(x)` for a call `x` that stores a pointer through an output
parameter: the stored pointer is handed on. -/
def TEST_NZ_out (x : M (Int × Nat)) (text : String) : M Nat := do
  let r ← x
  if r.1 ≠ 0 then die ("error: " ++ text ++ " failed (returned non-zero).") else pure r.2

/-- The macro `TEST_Z(x)`: evaluate `x`, `die` when its value is zero or `NULL`.
`text` is the source text of `x`. -/
def TEST_Z (x : M Nat) (text : String) : M Nat := do
  let p ← x
  if p = 0 then die ("error: " ++ text ++ " failed (returned zero/null).") else pure p

/-- A blocking call made when nothing is pending: it returns only to report a
failure. -/
def wait (c : Call) : M Int := fun w =>
  if w.mock.status w.trace.length = 0 then .blocked w
  else .ret (w.mock.status w.trace.length)
    { w with trace := w.trace ++ [.call c (w.mock.status w.trace.length)] }

/-- The `struct context` at the freshly allocated address `p`, after
`s_ctx->ctx = verbs`: the other fields are indeterminate. -/
def fresh_context (mock : Mock) (p : Nat) (verbs : Nat) : Context :=
  { ctx := verbs, pd := mock.junk (p + 1), cq := mock.junk (p + 2),
    comp_channel := mock.junk (p + 3), cq_poller_thread := mock.junk (p + 4) }

/-- The value of the global `s_ctx`: `none` when it is `NULL`, else the record it points to. -/
def s_ctx_get : M (Option Context) := fun w => .ret w.s_ctx w

/-- The statements `s_ctx = p; s_ctx->ctx = verbs` for a freshly allocated `p`. -/
def s_ctx_init (p : Nat) (verbs : Nat) : M Unit := fun w =>
  if p = 0 then .fault (.bad_pointer 0) w
  else .ret () { w with s_ctx := some (fresh_context w.mock p verbs) }

/-- Result of `getpid()`. -/
def getpid : M Int := fun w => .ret w.mock.pid w

/-- The function `ntohs`. -/
def ntohs (x : Int) : M Nat := fun w => .ret (w.mock.ntohs x) w

/-- Read through the global `s_ctx`. -/
def ctx_read : M Context := fun w =>
  match w.s_ctx with
  | none => .fault (.bad_pointer 0) w
  | some c => .ret c w

/-- Store into a field of `*s_ctx`, after `s_ctx` has been dereferenced. -/
def ctx_store (f : Context → Context) : M Unit := fun w =>
  .ret () { w with s_ctx := w.s_ctx.map f }

/-- Read the `rdma_cm_id` at address `id`. -/
def id_read (id : Nat) : M CmId := fun w => .ret (w.ids id) w

/-- Store into a field of the `struct connection` at address `p`, after `p`
has been dereferenced. -/
def conn_store (p : Nat) (f : Connection → Connection) : M Unit := fun w =>
  .ret () { w with conns := match heap_get p w.conns with
    | none => w.conns
    | some c => heap_set p (f c) w.conns }

/-- Write a field of the `rdma_cm_id` at address `id`. -/
def id_write (id : Nat) (f : CmId → CmId) : M Unit := fun w =>
  .ret () { w with ids := fun j => if j = id then f (w.ids id) else w.ids j }

/-- Read the `struct connection` at address `p`. -/
def conn_read (p : Nat) : M Connection := fun w =>
  if p = 0 then .fault (.bad_pointer 0) w else
  match heap_get p w.conns with
  | none => .fault (.bad_pointer p) w
  | some c => .ret c w

/-- Write a field of the `struct connection` at address `p`. -/
def conn_write (p : Nat) (f : Connection → Connection) : M Unit := fun w =>
  if p = 0 then .fault (.bad_pointer 0) w else
  match heap_get p w.conns with
  | none => .fault (.bad_pointer p) w
  | some c => .ret () { w with conns := heap_set p (f c) w.conns }

/-- Read `mr->lkey`. -/
def mr_lkey (mr : Nat) : M Nat := fun w =>
  if mr = 0 then .fault (.bad_pointer 0) w else .ret (w.mock.lkey mr) w

/-- The `struct connection` at the freshly allocated address `p`: every field
is indeterminate. -/
def fresh_connection (mock : Mock) (p : Nat) : Connection :=
  { qp := mock.junk p, recv_mr := mock.junk (p + 1), send_mr := mock.junk (p + 2),
    recv_region := mock.junk (p + 3), send_region := mock.junk (p + 4) }

/-- The function `malloc`: the environment chooses the address (`0` when it
fails); the new object has indeterminate content. -/
def malloc (size : Size) : M Nat := fun w =>
  let p := w.mock.handle w.trace.length
  .ret p { w with
    trace := w.trace ++ [.call (.malloc size) p]
    conns := if p ≠ 0 ∧ size = .connection then (p, fresh_connection w.mock p) :: w.conns
             else w.conns
    bufs := match size with
      | .bytes n =>
        if p ≠ 0 then (p, (List.range n).map (fun i => w.mock.junk (p + i))) :: w.bufs
        else w.bufs
      | _ => w.bufs }

/-- The function `free` on a byte buffer. -/
def free (p : Nat) : M Unit := fun w =>
  .ret () { w with trace := w.trace ++ [.call (.free p) 0], bufs := heap_free p w.bufs }

/-- The function `free` on a `struct connection`. -/
def free_conn (p : Nat) : M Unit := fun w =>
  .ret () { w with trace := w.trace ++ [.call (.free p) 0], conns := heap_free p w.conns }

/-- The bytes a `%s` conversion prints from a block: those before the first
zero byte; `none` when the block holds no zero byte, so that the scan leaves it. -/
def cstr : List Nat → Option (List Nat)
  | [] => none
  | b :: bs => if b = 0 then some [] else (cstr bs).map (fun s => b :: s)

/-- Number of bytes a `%s` conversion reads from a block, the terminator
included; `length + 1` (one read beyond the end) when the block holds no zero byte. -/
def cstr_reads : List Nat → Nat
  | [] => 1
  | b :: bs => if b = 0 then 1 else cstr_reads bs + 1

/-- Read the C string at address `p`, as `printf("%s", p)` does. -/
def read_string (p : Nat) : M (List Nat) := fun w =>
  if p = 0 then .fault (.bad_pointer 0) w else
  match heap_get p w.bufs with
  | none => .fault (.bad_pointer p) w
  | some blk =>
    match cstr blk with
    | none => .fault (.overrun p blk.length) w
    | some s => .ret s w

/-- The function `snprintf(buf, size, ...)` for a formatted text `s`: at most
`size - 1` bytes of the text are stored, followed by a zero byte. -/
def snprintf (buf : Nat) (size : Nat) (s : List Nat) : M Unit := fun w =>
  if size = 0 then .ret () w else
  let out := s.take (size - 1) ++ [0]
  if buf = 0 then .fault (.bad_pointer 0) w else
  match heap_get buf w.bufs with
  | none => .fault (.bad_pointer buf) w
  | some blk =>
    if blk.length < out.length then .fault (.overrun buf blk.length) w
    else .ret () { w with bufs := heap_set buf (out ++ blk.drop out.length) w.bufs }

/-- The text `"message from passive/server side with pid %d"` formatted with `pid`. -/
def pid_message (pid : Int) : List Nat :=
  ("message from passive/server side with pid ".toList ++ (toString pid).toList).map Char.toNat

/-! ## The program -/

/-- The function `build_context`. -/
def build_context (verbs : Nat) : M Unit := do
  let s ← s_ctx_get
  match s with
  | some c =>
    if c.ctx ≠ verbs then die "cannot handle events in more than one context."
    else pure ()
  | none => do
      let p ← malloc .context
      s_ctx_init p verbs
      let _ ← TEST_Z (do
          let c ← ctx_read
          let pd ← callp (.ibv_alloc_pd c.ctx)
          ctx_store (fun c => { c with pd := pd })
          pure pd)
        "s_ctx->pd = ibv_alloc_pd(s_ctx->ctx)"
      let _ ← TEST_Z (do
          let c ← ctx_read
          let ch ← callp (.ibv_create_comp_channel c.ctx)
          ctx_store (fun c => { c with comp_channel := ch })
          pure ch)
        "s_ctx->comp_channel = ibv_create_comp_channel(s_ctx->ctx)"
      let _ ← TEST_Z (do
          let c ← ctx_read
          let cq ← callp (.ibv_create_cq c.ctx 10 c.comp_channel)
          ctx_store (fun c => { c with cq := cq })
          pure cq)
        "s_ctx->cq = ibv_create_cq(s_ctx->ctx, 10, NULL, s_ctx->comp_channel, 0)"
      TEST_NZ (do
          let c ← ctx_read
          call (.ibv_req_notify_cq c.cq 0))
        "ibv_req_notify_cq(s_ctx->cq, 0)"
      TEST_NZ (do
          let _ ← ctx_read
          let rt ← callo .pthread_create
          ctx_store (fun c => { c with cq_poller_thread := rt.2 })
          pure rt.1)
        "pthread_create(&s_ctx->cq_poller_thread, NULL, poll_cq, NULL)"

/-- The function `build_qp_attr`. -/
def build_qp_attr : M QpInitAttr := do
  let c ← ctx_read
  pure { send_cq := c.cq, recv_cq := c.cq, qp_type := IBV_QPT_RC,
         max_send_wr := 10, max_recv_wr := 10, max_send_sge := 1, max_recv_sge := 1 }

/-- The function `post_receives`. -/
def post_receives (conn : Nat) : M Unit :=
  TEST_NZ (do
      let c ← conn_read conn
      let lkey ← mr_lkey c.recv_mr
      call (.ibv_post_recv c.qp
        { wr_id := conn, next := 0,
          sg_list := { addr := c.recv_region, length := BUFFER_SIZE, lkey := lkey },
          num_sge := 1 }))
    "ibv_post_recv(conn->qp, &wr, &bad_wr)"

/-- The function `register_memory`. -/
def register_memory (conn : Nat) : M Unit := do
  let s ← malloc (.bytes BUFFER_SIZE)
  conn_write conn (fun c => { c with send_region := s })
  let r ← malloc (.bytes BUFFER_SIZE)
  conn_write conn (fun c => { c with recv_region := r })
  let _ ← TEST_Z (do
      let x ← ctx_read
      let c ← conn_read conn
      let mr ← callp (.ibv_reg_mr x.pd c.send_region BUFFER_SIZE
        (IBV_ACCESS_LOCAL_WRITE ||| IBV_ACCESS_REMOTE_WRITE))
      conn_store conn (fun c => { c with send_mr := mr })
      pure mr)
    ("conn->send_mr = ibv_reg_mr( s_ctx->pd, conn->send_region, BUFFER_SIZE, " ++
      "IBV_ACCESS_LOCAL_WRITE | IBV_ACCESS_REMOTE_WRITE)")
  let _ ← TEST_Z (do
      let x ← ctx_read
      let c ← conn_read conn
      let mr ← callp (.ibv_reg_mr x.pd c.recv_region BUFFER_SIZE
        (IBV_ACCESS_LOCAL_WRITE ||| IBV_ACCESS_REMOTE_WRITE))
      conn_store conn (fun c => { c with recv_mr := mr })
      pure mr)
    ("conn->recv_mr = ibv_reg_mr( s_ctx->pd, conn->recv_region, BUFFER_SIZE, " ++
      "IBV_ACCESS_LOCAL_WRITE | IBV_ACCESS_REMOTE_WRITE)")
  pure ()

/-- The function `on_completion`. -/
def on_completion (wc : Wc) : M Unit := do
  log (.enter (.on_completion wc))
  (if wc.status ≠ IBV_WC_SUCCESS then
    die "on_completion: status is not IBV_WC_SUCCESS."
   else pure ())
  if wc.opcode &&& IBV_WC_RECV ≠ 0 then
    let conn ← conn_read wc.wr_id
    let msg ← read_string conn.recv_region
    print (.received msg)
  else if wc.opcode = IBV_WC_SEND then
    print (.line "send completed successfully.")
  else pure ()

/-- The function `on_connect_request`. -/
def on_connect_request (id : Nat) : M Int := do
  log (.enter (.on_connect_request id))
  print (.line "received connection request.")
  let i ← id_read id
  build_context i.verbs
  let qp_attr ← build_qp_attr
  TEST_NZ (do
      let x ← ctx_read
      let rq ← callo (.rdma_create_qp id x.pd qp_attr)
      id_write id (fun i => if rq.1 = 0 then { i with qp := rq.2 } else i)
      pure rq.1)
    "rdma_create_qp(id, s_ctx->pd, &qp_attr)"
  let conn ← malloc .connection
  id_write id (fun i => { i with context := conn })
  let i ← id_read id
  conn_write conn (fun c => { c with qp := i.qp })
  register_memory conn
  post_receives conn
  TEST_NZ (call (.rdma_accept id)) "rdma_accept(id, &cm_params)"
  pure 0

/-- The function `on_connection`. -/
def on_connection (context : Nat) : M Int := do
  log (.enter (.on_connection context))
  let c ← conn_read context
  let pid ← getpid
  snprintf c.send_region BUFFER_SIZE (pid_message pid)
  print (.line "connected. posting send...")
  let lkey ← mr_lkey c.send_mr
  TEST_NZ (call (.ibv_post_send c.qp
      { wr_id := 0, next := 0,
        sg_list := { addr := c.send_region, length := BUFFER_SIZE, lkey := lkey },
        num_sge := 1, opcode := IBV_WR_SEND, send_flags := IBV_SEND_SIGNALED }))
    "ibv_post_send(conn->qp, &wr, &bad_wr)"
  pure 0

/-- The function `on_disconnect`. -/
def on_disconnect (id : Nat) : M Int := do
  log (.enter (.on_disconnect id))
  let i ← id_read id
  print (.line "peer disconnected.")
  callv (.rdma_destroy_qp id)
  let c ← conn_read i.context
  let _ ← call (.ibv_dereg_mr c.send_mr)
  let c ← conn_read i.context
  let _ ← call (.ibv_dereg_mr c.recv_mr)
  let c ← conn_read i.context
  free c.send_region
  let c ← conn_read i.context
  free c.recv_region
  free_conn i.context
  let _ ← call (.rdma_destroy_id id)
  pure 0

/-- The function `on_event`. -/
def on_event (event : CmEvent) : M Int :=
  if event.event = RDMA_CM_EVENT_CONNECT_REQUEST then
    on_connect_request event.id
  else if event.event = RDMA_CM_EVENT_ESTABLISHED then do
    let i ← id_read event.id
    on_connection i.context
  else if event.event = RDMA_CM_EVENT_DISCONNECTED then
    on_disconnect event.id
  else
    die "on_event: unknown event."

/-- The inner loop of `poll_cq`, `while (ibv_poll_cq(cq, 1, &wc)) on_completion(&wc);`.
Each element of the script is the value one call of `ibv_poll_cq` returns and
the content of `wc` after it; once the script is used up the queue reports
none ready. -/
def drain (cq : Nat) : List (Int × Wc) → M Unit
  | [] => log (.call (.ibv_poll_cq cq 1) 0)
  | (r, wc) :: rest => do
    log (.call (.ibv_poll_cq cq 1) r)
    if r = 0 then pure ()
    else
      on_completion wc
      drain cq rest

/-- One iteration of the outer loop of `poll_cq`, for a notification that
arrives when polling will follow the script `ready`. -/
def poll_cq_iteration (ready : List (Int × Wc)) : M Unit := do
  let cq ← TEST_NZ_out (do
      let c ← ctx_read
      callo (.ibv_get_cq_event c.comp_channel))
    "ibv_get_cq_event(s_ctx->comp_channel, &cq, &ctx)"
  callv (.ibv_ack_cq_events cq 1)
  TEST_NZ (call (.ibv_req_notify_cq cq 0)) "ibv_req_notify_cq(cq, 0)"
  drain cq ready

/-- The loop of `main`: `events` are the events the channel will deliver, in
order; with none left, `rdma_get_cm_event` blocks unless it fails.  The loop
ends when `rdma_get_cm_event` returns non-zero or `on_event` does. -/
def main_loop (ec : Nat) : List CmEvent → M Unit
  | [] => do
    let _ ← wait (.rdma_get_cm_event ec)
    pure ()
  | event :: later => do
    let r ← call (.rdma_get_cm_event ec)
    if r = 0 then do
      let _ ← call (.rdma_ack_cm_event event)
      let r ← on_event event
      if r ≠ 0 then pure () else main_loop ec later
    else pure ()

/-- The function `main`. -/
def main (events : List CmEvent) : M Int := do
  let ec ← TEST_Z (callp .rdma_create_event_channel) "ec = rdma_create_event_channel()"
  let listener ← TEST_NZ_out (callo (.rdma_create_id ec RDMA_PS_TCP))
    "rdma_create_id(ec, &listener, NULL, RDMA_PS_TCP)"
  TEST_NZ (call (.rdma_bind_addr listener)) "rdma_bind_addr(listener, (struct sockaddr *)&addr)"
  TEST_NZ (call (.rdma_listen listener 10)) "rdma_listen(listener, 10)"
  let port ← call (.rdma_get_src_port listener)
  let h ← ntohs port
  print (.listening h)
  main_loop ec events
  let _ ← call (.rdma_destroy_id listener)
  callv (.rdma_destroy_event_channel ec)
  pure 0

/-- The initial process state for an environment and the `rdma_cm_id` records
the library will hand out. -/
def World.start (mock : Mock) (ids : Nat → CmId) : World :=
  { mock := mock, s_ctx := none, ids := ids, conns := [], bufs := [],
    trace := [], stdout := [], stderr := [] }

/-- The library calls of a trace, in order. -/
def calls : List Entry → List Call
  | [] => []
  | .call c _ :: t => c :: calls t
  | .enter _ :: t => calls t

/-! ## Observations on traces -/

/-- The invalid memory access that ended the computation, if any. -/
def Outcome.fault_of : Outcome α → Option Fault
  | .fault f _ => some f
  | _ => none

/-- Whether the computation waits forever. -/
def Outcome.blocks : Outcome α → Bool
  | .blocked _ => true
  | _ => false

/-- Whether the value `r` returned by call `c` is the failure result of that
library function: `NULL` for the functions returning a pointer, non-zero for
the functions returning an `int` status, negative for `ibv_poll_cq`. -/
def Call.reports_failure (c : Call) (r : Int) : Bool :=
  match c with
  | .rdma_create_event_channel => r == 0
  | .ibv_alloc_pd _ => r == 0
  | .ibv_create_comp_channel _ => r == 0
  | .ibv_create_cq _ _ _ => r == 0
  | .ibv_reg_mr _ _ _ _ => r == 0
  | .rdma_create_id _ _ => r != 0
  | .rdma_bind_addr _ => r != 0
  | .rdma_listen _ _ => r != 0
  | .rdma_get_cm_event _ => r != 0
  | .rdma_ack_cm_event _ => r != 0
  | .rdma_destroy_id _ => r != 0
  | .rdma_create_qp _ _ _ => r != 0
  | .rdma_accept _ => r != 0
  | .ibv_req_notify_cq _ _ => r != 0
  | .ibv_get_cq_event _ => r != 0
  | .ibv_dereg_mr _ => r != 0
  | .ibv_post_recv _ _ => r != 0
  | .ibv_post_send _ _ => r != 0
  | .pthread_create => r != 0
  | .ibv_poll_cq _ _ => decide (r < 0)
  | .rdma_get_src_port _ => false
  | .rdma_destroy_event_channel _ => false
  | .rdma_destroy_qp _ => false
  | .ibv_ack_cq_events _ _ => false
  | .malloc _ => false
  | .free _ => false

/-- The calls that the program wraps in `TEST_Z` or `TEST_NZ`. -/
def Call.tested : Call → Bool
  | .rdma_create_event_channel => true
  | .rdma_create_id _ _ => true
  | .rdma_bind_addr _ => true
  | .rdma_listen _ _ => true
  | .ibv_alloc_pd _ => true
  | .ibv_create_comp_channel _ => true
  | .ibv_create_cq _ _ _ => true
  | .ibv_req_notify_cq _ _ => true
  | .pthread_create => true
  | .ibv_get_cq_event _ => true
  | .ibv_post_recv _ _ => true
  | .ibv_reg_mr _ _ _ _ => true
  | .rdma_create_qp _ _ _ => true
  | .rdma_accept _ => true
  | .ibv_post_send _ _ => true
  | _ => false

/-- A trace entry that records the failure of a tested call. -/
def Entry.tested_failure : Entry → Bool
  | .call c r => c.tested && c.reports_failure r
  | .enter _ => false

/-- No entry of the trace records the failure of a tested call. -/
def Clean (t : List Entry) : Prop := ∀ e ∈ t, e.tested_failure = false

/-- The outcome agrees with fail-fast handling of tested calls: after a normal
return, a fault or a block no tested call of the trace has failed; after `exit`
the status is `EXIT_FAILURE` and no tested call other than the last entry of
the trace has failed. -/
def Tidy (o : Outcome α) : Prop :=
  match o with
  | .ret _ w => Clean w.trace
  | .fault _ w => Clean w.trace
  | .blocked w => Clean w.trace
  | .exit s w => s = EXIT_FAILURE ∧ Clean w.trace.dropLast

/-- Fail-fast handling of tested calls by a computation: the trace and the
diagnostics only grow, an `exit` comes with a new diagnostic, and the outcome
is tidy when the computation starts from a clean trace. -/
def Sound (m : M α) : Prop :=
  ∀ w, w.trace.length ≤ (m w).world.trace.length ∧
    w.stderr.length ≤ (m w).world.stderr.length ∧
    ((m w).exited = true → w.stderr.length < (m w).world.stderr.length) ∧
    (Clean w.trace → Tidy (m w))

/-- Fail-fast handling of tested calls by a computation that never waits. -/
def Steady (m : M α) : Prop := Sound m ∧ ∀ w, (m w).blocks = false

/-- Whether a call is `ibv_post_recv`. -/
def Call.is_post_recv : Call → Bool
  | .ibv_post_recv _ _ => true
  | _ => false

/-- Whether a call is `rdma_accept`. -/
def Call.is_accept : Call → Bool
  | .rdma_accept _ => true
  | _ => false

/-- Whether a call is `ibv_reg_mr`. -/
def Call.is_reg_mr : Call → Bool
  | .ibv_reg_mr _ _ _ _ => true
  | _ => false

/-- Whether a call is `ibv_dereg_mr`. -/
def Call.is_dereg_mr : Call → Bool
  | .ibv_dereg_mr _ => true
  | _ => false

/-- Number of memory-region registrations in a trace. -/
def registrations (t : List Entry) : Nat := ((calls t).filter Call.is_reg_mr).length

/-- Number of memory-region deregistrations in a trace. -/
def deregistrations (t : List Entry) : Nat := ((calls t).filter Call.is_dereg_mr).length

/-- The identities that had a connection request not yet followed by a
disconnected event, after `events` (starting from `live`); `none` when a
disconnected event refers to an identity that is not among them. -/
def open_ids : List Nat → List CmEvent → Option (List Nat)
  | live, [] => some live
  | live, e :: es =>
    if e.event = RDMA_CM_EVENT_CONNECT_REQUEST then open_ids (e.id :: live) es
    else if e.event = RDMA_CM_EVENT_DISCONNECTED then
      if e.id ∈ live then open_ids (live.erase e.id) es else none
    else open_ids live es

/-- Every disconnected event refers to an identity that had a connection
request and has not been disconnected since. -/
def well_formed (events : List CmEvent) : Bool := (open_ids [] events).isSome

/-- Number of Connections not yet Closed after `events`. -/
def not_closed (events : List CmEvent) : Nat := ((open_ids [] events).getD []).length

/-- Successive calls of `build_context`, one per endpoint of the list. -/
def build_contexts : List Nat → M Unit
  | [] => pure ()
  | v :: vs => do
    build_context v
    build_contexts vs

/-- The trace the spec asks of a drain of the ready completions `cs`: each is
polled and handed to the handler, in queue order, and a last poll reports
none ready. -/
def polled (cq : Nat) : List Wc → List Entry
  | [] => [.call (.ibv_poll_cq cq 1) 0]
  | c :: cs => .call (.ibv_poll_cq cq 1) 1 :: .enter (.on_completion c) :: polled cq cs

/-! ## Sample environments -/

/-- An environment in which every call succeeds and every address is fresh. -/
def calm : Mock :=
  { status := fun _ => 0, handle := fun k => k + 100, junk := fun _ => 0,
    lkey := fun mr => mr + 1, pid := 4242, ntohs := fun x => x.toNat }

/-- The `rdma_cm_id` records before any connection: endpoint 7, no queue pair, no context. -/
def blank_ids : Nat → CmId := fun _ => { verbs := 7, qp := 0, context := 0 }

/-- A state with one Connection (at address 50, on identity 1) whose buffers
hold zero bytes. -/
def one_connection : World :=
  { mock := calm
    s_ctx := some { ctx := 7, pd := 1, cq := 2, comp_channel := 3, cq_poller_thread := 4 }
    ids := fun _ => { verbs := 7, qp := 9, context := 50 }
    conns := [(50, { qp := 9, recv_mr := 11, send_mr := 12, recv_region := 60, send_region := 70 })]
    bufs := [(70, List.replicate BUFFER_SIZE 0), (60, List.replicate BUFFER_SIZE 0)]
    trace := [], stdout := [], stderr := [] }

/-- A state with one Connection whose receive buffer holds 1024 bytes `'A'`
and no zero byte. -/
def unterminated : World :=
  { one_connection with bufs := [(70, List.replicate BUFFER_SIZE 0), (60, List.replicate BUFFER_SIZE 65)] }

/-- The computation leaves the live Connections and the numbers of
registrations and deregistrations as they are, however it ends. -/
def Neutral (m : M α) : Prop :=
  ∀ w, (m w).world.conns = w.conns ∧
    registrations (m w).world.trace = registrations w.trace ∧
    deregistrations (m w).world.trace = deregistrations w.trace

@[simp] theorem bind_apply {α β : Type} (m : M α) (f : α → M β) (w : World) :
    (m >>= f) w = (m w).bind f := by
  cases w; rfl

@[simp] theorem pure_apply {α : Type} (a : α) (w : World) : (pure a : M α) w = .ret a w := by
  cases w; rfl

@[simp] theorem Outcome.bind_ret {α β : Type} (a : α) (w : World) (f : α → World → Outcome β) :
    (Outcome.ret a w).bind f = f a w := by
  cases w; rfl

@[simp] theorem Outcome.bind_exit {α β : Type} (s : Int) (w : World) (f : α → World → Outcome β) :
    (Outcome.exit s w : Outcome α).bind f = .exit s w := by
  cases w; rfl

@[simp] theorem Outcome.bind_fault {α β : Type} (e : Fault) (w : World)
    (f : α → World → Outcome β) : (Outcome.fault e w : Outcome α).bind f = .fault e w := by
  cases w; rfl

@[simp] theorem Outcome.bind_blocked {α β : Type} (w : World) (f : α → World → Outcome β) :
    (Outcome.blocked w : Outcome α).bind f = .blocked w := by
  cases w; rfl

@[simp] theorem Outcome.bind_ite {α β : Type} (c : Prop) [Decidable c] (a b : Outcome α)
    (f : α → World → Outcome β) :
    (if c then a else b).bind f = if c then a.bind f else b.bind f := by
  split <;> rfl

@[simp] theorem M.ite_apply {α : Type} (c : Prop) [Decidable c] (a b : M α) (w : World) :
    (if c then a else b) w = if c then a w else b w := by
  split <;> rfl

@[simp] theorem Outcome.world_ret {α : Type} (a : α) (w : World) : (Outcome.ret a w).world = w := by
  cases w; rfl
@[simp] theorem Outcome.world_exit {α : Type} (s : Int) (w : World) :
    (Outcome.exit s w : Outcome α).world = w := by
  cases w; rfl
@[simp] theorem Outcome.world_fault {α : Type} (e : Fault) (w : World) :
    (Outcome.fault e w : Outcome α).world = w := by
  cases w; rfl
@[simp] theorem Outcome.world_blocked {α : Type} (w : World) :
    (Outcome.blocked w : Outcome α).world = w := by
  cases w; rfl

@[simp] theorem returned_ret {α : Type} (a : α) (w : World) :
    (Outcome.ret a w).returned = true := by
  cases w; rfl

@[simp] theorem returned_exit {α : Type} (s : Int) (w : World) :
    (Outcome.exit s w : Outcome α).returned = false := by
  cases w; rfl

@[simp] theorem returned_fault {α : Type} (e : Fault) (w : World) :
    (Outcome.fault e w : Outcome α).returned = false := by
  cases w; rfl

@[simp] theorem returned_blocked {α : Type} (w : World) :
    (Outcome.blocked w : Outcome α).returned = false := by
  cases w; rfl

@[simp] theorem value_ret {α : Type} (a : α) (w : World) : (Outcome.ret a w).value = some a := by
  cases w; rfl

@[simp] theorem value_exit {α : Type} (s : Int) (w : World) :
    (Outcome.exit s w : Outcome α).value = none := by
  cases w; rfl

@[simp] theorem value_fault {α : Type} (e : Fault) (w : World) :
    (Outcome.fault e w : Outcome α).value = none := by
  cases w; rfl

@[simp] theorem value_blocked {α : Type} (w : World) :
    (Outcome.blocked w : Outcome α).value = none := by
  cases w; rfl

@[simp] theorem heap_get_cons_self {β : Type} (p : Nat) (v : β) (h : List (Nat × β)) :
    heap_get p ((p, v) :: h) = some v := by
  simp [heap_get]

@[simp] theorem heap_set_cons_self {β : Type} (p : Nat) (u v : β) (h : List (Nat × β)) :
    heap_set p v ((p, u) :: h) = (p, v) :: h := by
  simp [heap_set]

@[simp] theorem heap_free_cons_self {β : Type} (p : Nat) (v : β) (h : List (Nat × β)) :
    heap_free p ((p, v) :: h) = h := by
  simp [heap_free]

theorem heap_get_set {β : Type} (p : Nat) (v : β) (h : List (Nat × β)) :
    heap_get p (heap_set p v h) = (heap_get p h).map (fun _ => v) := by
  induction h with
  | nil => rfl
  | cons e t ih =>
    obtain ⟨q, u⟩ := e
    by_cases hq : q = p
    · simp [heap_get, heap_set, hq]
    · simp [heap_get, heap_set, hq, ih]

@[simp] theorem heap_set_length {β : Type} (p : Nat) (v : β) (h : List (Nat × β)) :
    (heap_set p v h).length = h.length := by
  induction h with
  | nil => rfl
  | cons e t ih =>
    obtain ⟨q, u⟩ := e
    by_cases hq : q = p
    · simp [heap_set, hq]
    · simp [heap_set, hq, ih]

theorem heap_free_length {β : Type} (p : Nat) (v : β) (h : List (Nat × β))
    (hv : heap_get p h = some v) : (heap_free p h).length + 1 = h.length := by
  induction h with
  | nil => cases hv
  | cons e t ih =>
    obtain ⟨q, u⟩ := e
    by_cases hq : q = p
    · simp [heap_free, hq]
    · simp only [heap_get, hq, if_false] at hv
      simp [heap_free, hq, ih hv]

theorem calls_append (a b : List Entry) : calls (a ++ b) = calls a ++ calls b := by
  induction a with
  | nil => rfl
  | cons e t ih => cases e <;> simp [calls, ih]

/-! ### Fail-fast handling -/

theorem Clean.nil : Clean [] := by
  intro e he; cases he

@[simp] theorem clean_append (s t : List Entry) : Clean (s ++ t) ↔ Clean s ∧ Clean t := by
  unfold Clean
  constructor
  · intro h
    exact ⟨fun e he => h e (List.mem_append_left _ he), fun e he => h e (List.mem_append_right _ he)⟩
  · rintro ⟨h1, h2⟩ e he
    rcases List.mem_append.1 he with h | h
    · exact h1 e h
    · exact h2 e h

@[simp] theorem clean_cons (e : Entry) (t : List Entry) :
    Clean (e :: t) ↔ e.tested_failure = false ∧ Clean t := by
  unfold Clean
  simp

@[simp] theorem clean_nil : Clean [] ↔ True := by
  simp [Clean]

theorem Clean.dropLast {t : List Entry} (h : Clean t) : Clean t.dropLast :=
  fun e he => h e (List.dropLast_subset t he)

@[simp] theorem dropLast_snoc (t : List Entry) (e : Entry) : (t ++ [e]).dropLast = t := by
  simp

@[simp] theorem exited_ret {α : Type} (a : α) (w : World) :
    (Outcome.ret a w).exited = false := rfl

@[simp] theorem exited_exit {α : Type} (s : Int) (w : World) :
    (Outcome.exit s w : Outcome α).exited = true := rfl

@[simp] theorem exited_fault {α : Type} (e : Fault) (w : World) :
    (Outcome.fault e w : Outcome α).exited = false := rfl

@[simp] theorem exited_blocked {α : Type} (w : World) :
    (Outcome.blocked w : Outcome α).exited = false := rfl

@[simp] theorem blocks_ret {α : Type} (a : α) (w : World) :
    (Outcome.ret a w).blocks = false := rfl

@[simp] theorem blocks_exit {α : Type} (s : Int) (w : World) :
    (Outcome.exit s w : Outcome α).blocks = false := rfl

@[simp] theorem blocks_fault {α : Type} (e : Fault) (w : World) :
    (Outcome.fault e w : Outcome α).blocks = false := rfl

@[simp] theorem blocks_blocked {α : Type} (w : World) :
    (Outcome.blocked w : Outcome α).blocks = true := rfl

theorem sound_pure {α : Type} (a : α) : Sound (pure a : M α) := by
  intro w; simp [Tidy]

theorem sound_bind {α β : Type} {m : M α} {f : α → M β} (hm : Sound m) (hf : ∀ a, Sound (f a)) :
    Sound (m >>= f) := by
  intro w
  have h := hm w
  simp only [bind_apply]
  cases hmw : m w with
  | ret a w1 =>
    rw [hmw] at h
    simp only [Outcome.bind_ret, Outcome.world_ret, Tidy] at h ⊢
    have h2 := hf a w1
    exact ⟨le_trans h.1 h2.1, le_trans h.2.1 h2.2.1,
      fun he => lt_of_le_of_lt h.2.1 (h2.2.2.1 he), fun hc => h2.2.2.2 (h.2.2.2 hc)⟩
  | exit s w1 => rw [hmw] at h; simpa using h
  | fault e w1 => rw [hmw] at h; simpa using h
  | blocked w1 => rw [hmw] at h; simpa using h

/-- A step that does not exit and leaves the trace and the diagnostics alone is sound. -/
theorem sound_of_quiet {α : Type} (m : M α)
    (h : ∀ w, (m w).exited = false ∧ (m w).world.trace = w.trace ∧
      (m w).world.stderr = w.stderr) : Sound m := by
  intro w
  have := h w
  cases hm : m w <;> rw [hm] at this <;> simp_all [Tidy]

theorem sound_log (e : Entry) (he : e.tested_failure = false) : Sound (log e) := by
  intro w; simp [log, Tidy, he]

theorem sound_call (c : Call) (hc : c.tested = false) : Sound (call c) := by
  intro w; simp [call, Tidy, Entry.tested_failure, hc]

theorem sound_callv (c : Call) (hc : c.tested = false) : Sound (callv c) := by
  intro w; simp [callv, Tidy, Entry.tested_failure, hc]

theorem sound_die {α : Type} (reason : String) : Sound (die reason : M α) := by
  intro w; simp [die, Tidy]
  intro h; exact h.dropLast

theorem steady_of {α : Type} (m : M α)
    (h : ∀ w, (w.trace.length ≤ (m w).world.trace.length ∧
        w.stderr.length ≤ (m w).world.stderr.length ∧
        ((m w).exited = true → w.stderr.length < (m w).world.stderr.length) ∧
        (Clean w.trace → Tidy (m w))) ∧
      (m w).blocks = false) : Steady m :=
  ⟨fun w => (h w).1, fun w => (h w).2⟩

theorem noblock_of_steady {α : Type} {m : M α} (h : Steady m) :
    ∀ w, (m w).blocks = false := h.2

theorem steady_pure {α : Type} (a : α) : Steady (pure a : M α) :=
  ⟨sound_pure a, fun _ => rfl⟩

theorem steady_bind {α β : Type} {m : M α} {f : α → M β} (hm : Steady m)
    (hf : ∀ a, Steady (f a)) : Steady (m >>= f) := by
  refine ⟨sound_bind hm.1 (fun a => (hf a).1), fun w => ?_⟩
  have h := hm.2 w
  simp only [bind_apply]
  cases hmw : m w with
  | ret a w1 => exact (hf a).2 w1
  | exit s w1 => rfl
  | fault e w1 => rfl
  | blocked w1 => rw [hmw] at h; cases h

theorem steady_ite {α : Type} (c : Prop) [Decidable c] {a b : M α} (ha : Steady a)
    (hb : Steady b) : Steady (if c then a else b) := by
  split
  · exact ha
  · exact hb

/-- A step that neither exits nor waits and leaves the trace alone is steady. -/
theorem steady_of_quiet {α : Type} (m : M α)
    (h : ∀ w, (m w).exited = false ∧ (m w).blocks = false ∧ (m w).world.trace = w.trace ∧
      (m w).world.stderr = w.stderr) :
    Steady m := by
  refine ⟨sound_of_quiet m (fun w => ⟨(h w).1, (h w).2.2⟩), fun w => (h w).2.1⟩

theorem steady_log (e : Entry) (he : e.tested_failure = false) : Steady (log e) :=
  ⟨sound_log e he, fun _ => rfl⟩

theorem steady_call (c : Call) (hc : c.tested = false) : Steady (call c) :=
  ⟨sound_call c hc, fun _ => rfl⟩

theorem steady_callv (c : Call) (hc : c.tested = false) : Steady (callv c) :=
  ⟨sound_callv c hc, fun _ => rfl⟩

theorem steady_die {α : Type} (reason : String) : Steady (die reason : M α) :=
  ⟨sound_die reason, fun _ => rfl⟩

theorem steady_print (p : Printed) : Steady (print p) :=
  steady_of_quiet _ (fun _ => ⟨rfl, rfl, rfl, rfl⟩)

theorem steady_s_ctx_get : Steady s_ctx_get :=
  steady_of_quiet _ (fun _ => ⟨rfl, rfl, rfl, rfl⟩)

theorem steady_getpid : Steady getpid :=
  steady_of_quiet _ (fun _ => ⟨rfl, rfl, rfl, rfl⟩)

theorem steady_ntohs (x : Int) : Steady (ntohs x) :=
  steady_of_quiet _ (fun _ => ⟨rfl, rfl, rfl, rfl⟩)

theorem steady_id_read (id : Nat) : Steady (id_read id) :=
  steady_of_quiet _ (fun _ => ⟨rfl, rfl, rfl, rfl⟩)

theorem steady_id_write (id : Nat) (f : CmId → CmId) : Steady (id_write id f) :=
  steady_of_quiet _ (fun _ => ⟨rfl, rfl, rfl, rfl⟩)

theorem steady_ctx_read : Steady ctx_read := by
  apply steady_of_quiet; intro w; unfold ctx_read; cases w.s_ctx <;> simp

theorem steady_s_ctx_init (p v : Nat) : Steady (s_ctx_init p v) := by
  apply steady_of_quiet; intro w; unfold s_ctx_init
  split <;> simp

theorem steady_conn_read (p : Nat) : Steady (conn_read p) := by
  apply steady_of_quiet; intro w; unfold conn_read
  split
  · simp
  · split <;> simp

theorem steady_conn_write (p : Nat) (f : Connection → Connection) : Steady (conn_write p f) := by
  apply steady_of_quiet; intro w; unfold conn_write
  split
  · simp
  · split <;> simp

theorem steady_mr_lkey (mr : Nat) : Steady (mr_lkey mr) := by
  apply steady_of_quiet; intro w; unfold mr_lkey
  split <;> simp

theorem steady_snprintf (buf size : Nat) (s : List Nat) : Steady (snprintf buf size s) := by
  apply steady_of_quiet; intro w; unfold snprintf
  split
  · simp
  · simp only
    split
    · simp
    · split
      · simp
      · split <;> simp

theorem steady_malloc (s : Size) : Steady (malloc s) :=
  steady_of _ (fun w => by simp [malloc, Tidy, Entry.tested_failure, Call.tested, Outcome.blocks])

theorem steady_free (p : Nat) : Steady (free p) :=
  steady_of _ (fun w => by simp [free, Tidy, Entry.tested_failure, Call.tested, Outcome.blocks])

theorem steady_free_conn (p : Nat) : Steady (free_conn p) :=
  steady_of _ (fun w => by simp [free_conn, Tidy, Entry.tested_failure, Call.tested, Outcome.blocks])

/-! ### Dispatch -/

theorem on_event_connect_request (e : CmEvent) (w : World)
    (h : e.event = RDMA_CM_EVENT_CONNECT_REQUEST) :
    on_event e w = on_connect_request e.id w := by
  simp [on_event, h]

theorem on_event_established (e : CmEvent) (w : World)
    (h : e.event = RDMA_CM_EVENT_ESTABLISHED) :
    on_event e w = on_connection (w.ids e.id).context w := by
  have hne : RDMA_CM_EVENT_ESTABLISHED ≠ RDMA_CM_EVENT_CONNECT_REQUEST := by decide
  simp [on_event, h, hne, id_read]

theorem on_event_disconnected (e : CmEvent) (w : World)
    (h : e.event = RDMA_CM_EVENT_DISCONNECTED) :
    on_event e w = on_disconnect e.id w := by
  have hne : RDMA_CM_EVENT_DISCONNECTED ≠ RDMA_CM_EVENT_CONNECT_REQUEST := by decide
  have hne2 : RDMA_CM_EVENT_DISCONNECTED ≠ RDMA_CM_EVENT_ESTABLISHED := by decide
  simp [on_event, h, hne, hne2]

theorem on_event_unknown (e : CmEvent) (w : World)
    (h1 : e.event ≠ RDMA_CM_EVENT_CONNECT_REQUEST) (h2 : e.event ≠ RDMA_CM_EVENT_ESTABLISHED)
    (h3 : e.event ≠ RDMA_CM_EVENT_DISCONNECTED) :
    on_event e w = .exit EXIT_FAILURE { w with stderr := w.stderr ++ ["on_event: unknown event."] } := by
  simp [on_event, h1, h2, h3, die]

/-! ## Fail-fast handling, function by function -/

theorem steady_build_context (v : Nat) : Steady (build_context v) := by
  unfold build_context
  refine steady_bind steady_s_ctx_get (fun s => ?_)
  cases s with
  | some c => exact steady_ite _ (steady_die _) (steady_pure _)
  | none =>
    simp only
    refine steady_bind (steady_malloc _) (fun p => ?_)
    refine steady_bind (steady_s_ctx_init _ _) (fun _ => ?_)
    refine steady_bind ?_ (fun _ => steady_bind ?_ (fun _ => steady_bind ?_ (fun _ =>
      steady_bind ?_ (fun _ => ?_)))) <;>
    · refine steady_of _ (fun w => ?_)
      cases hs : w.s_ctx <;>
      simp [TEST_Z, TEST_NZ, ctx_read, callp, call, callo, ctx_store, die, hs, Tidy,
        Entry.tested_failure, Call.tested, Call.reports_failure] <;>
      split <;>
      simp_all [Tidy, Entry.tested_failure, Call.tested, Call.reports_failure]

theorem steady_build_qp_attr : Steady build_qp_attr :=
  steady_bind steady_ctx_read (fun _ => steady_pure _)

theorem steady_post_receives (conn : Nat) : Steady (post_receives conn) := by
  refine steady_of _ (fun w => ?_)
  by_cases h0 : conn = 0
  · simp [post_receives, TEST_NZ, conn_read, h0, Tidy]
  · cases hc : heap_get conn w.conns with
    | none => simp [post_receives, TEST_NZ, conn_read, h0, hc, Tidy]
    | some c =>
      by_cases h1 : c.recv_mr = 0
      · simp [post_receives, TEST_NZ, conn_read, mr_lkey, h0, hc, h1, Tidy]
      · simp [post_receives, TEST_NZ, conn_read, mr_lkey, call, die, h0, hc, h1, Tidy,
          Outcome.blocks]
        split <;>
        simp_all [Tidy, Entry.tested_failure, Call.tested, Call.reports_failure]

theorem steady_TEST_Z_reg_mr (conn : Nat) (g : Context → Connection → Call)
    (hg : ∀ x c, ∃ a b n f, g x c = .ibv_reg_mr a b n f)
    (st : Nat → Connection → Connection) (t : String) :
    Steady (TEST_Z (do
      let x ← ctx_read
      let c ← conn_read conn
      let mr ← callp (g x c)
      conn_store conn (st mr)
      pure mr) t) := by
  refine steady_of _ (fun w => ?_)
  cases hs : w.s_ctx with
  | none => simp [TEST_Z, ctx_read, hs, Tidy]
  | some x =>
    by_cases h0 : conn = 0
    · simp [TEST_Z, ctx_read, conn_read, hs, h0, Tidy]
    · cases hc : heap_get conn w.conns with
      | none => simp [TEST_Z, ctx_read, conn_read, hs, h0, hc, Tidy]
      | some c =>
        obtain ⟨a, b, n, f, hgx⟩ := hg x c
        simp [TEST_Z, ctx_read, conn_read, callp, conn_store, die, hs, h0, hc, hgx, Tidy,
          Outcome.blocks]
        split <;>
        simp_all [Tidy, Entry.tested_failure, Call.tested, Call.reports_failure]

theorem steady_register_memory (conn : Nat) : Steady (register_memory conn) := by
  unfold register_memory
  refine steady_bind (steady_malloc _) (fun _ => steady_bind (steady_conn_write _ _) (fun _ =>
    steady_bind (steady_malloc _) (fun _ => steady_bind (steady_conn_write _ _) (fun _ =>
    steady_bind ?_ (fun _ => steady_bind ?_ (fun _ => steady_pure _))))))
  · exact steady_TEST_Z_reg_mr conn (fun x c => .ibv_reg_mr x.pd c.send_region BUFFER_SIZE _)
      (fun x c => ⟨_, _, _, _, rfl⟩) (fun mr c => { c with send_mr := mr }) _
  · exact steady_TEST_Z_reg_mr conn (fun x c => .ibv_reg_mr x.pd c.recv_region BUFFER_SIZE _)
      (fun x c => ⟨_, _, _, _, rfl⟩) (fun mr c => { c with recv_mr := mr }) _

theorem steady_TEST_NZ_call (c : Call) (t : String)
    (hc : ∀ r, c.reports_failure r = true → r ≠ 0) : Steady (TEST_NZ (call c) t) := by
  refine steady_of _ (fun w => ?_)
  have hz : (Entry.call c 0).tested_failure = false := by
    cases h : (Entry.call c 0).tested_failure
    · rfl
    · simp only [Entry.tested_failure, Bool.and_eq_true] at h
      exact absurd rfl (hc 0 h.2)
  simp only [TEST_NZ, call, die, bind_apply, Outcome.bind_ret, M.ite_apply, pure_apply]
  split <;> simp_all [Tidy]

theorem steady_TEST_NZ_out_callo (c : Call) (t : String)
    (hc : ∀ r, c.reports_failure r = true → r ≠ 0) : Steady (TEST_NZ_out (callo c) t) := by
  refine steady_of _ (fun w => ?_)
  have hz : (Entry.call c 0).tested_failure = false := by
    cases h : (Entry.call c 0).tested_failure
    · rfl
    · simp only [Entry.tested_failure, Bool.and_eq_true] at h
      exact absurd rfl (hc 0 h.2)
  simp only [TEST_NZ_out, callo, die, bind_apply, Outcome.bind_ret, M.ite_apply, pure_apply]
  split <;> simp_all [Tidy]

theorem steady_TEST_Z_callp (c : Call) (t : String)
    (hc : ∀ r, c.reports_failure r = true → r = 0) : Steady (TEST_Z (callp c) t) := by
  refine steady_of _ (fun w => ?_)
  have hz : ∀ p : Nat, p ≠ 0 → (Entry.call c p).tested_failure = false := by
    intro p hp
    cases h : (Entry.call c p).tested_failure
    · rfl
    · simp only [Entry.tested_failure, Bool.and_eq_true] at h
      have := hc _ h.2
      omega
  simp only [TEST_Z, callp, die, bind_apply, Outcome.bind_ret, M.ite_apply, pure_apply]
  split <;> simp_all [Tidy]

/-- A handler that first records its entry: it is steady when the rest is, and its
trace is strictly longer than the trace it started from. -/
theorem enters_of {α : Type} (e : Entry) (f : Unit → M α) (he : e.tested_failure = false)
    (hf : Steady (f ())) :
    Steady (log e >>= f) ∧ ∀ w, w.trace.length < ((log e >>= f) w).world.trace.length := by
  refine ⟨steady_bind (steady_log e he) (fun _ => hf), fun w => ?_⟩
  have h := (hf.1 { w with trace := w.trace ++ [e] }).1
  simp only [bind_apply, log, Outcome.bind_ret]
  simp only [List.length_append, List.length_singleton] at h
  omega

theorem enters_on_connect_request (id : Nat) :
    Steady (on_connect_request id) ∧
      ∀ w, w.trace.length < (on_connect_request id w).world.trace.length := by
  unfold on_connect_request
  refine enters_of _ _ rfl ?_
  refine steady_bind (steady_print _) (fun _ =>
    steady_bind (steady_id_read _) (fun i => steady_bind (steady_build_context _) (fun _ =>
    steady_bind steady_build_qp_attr (fun a => steady_bind ?_ (fun _ =>
    steady_bind (steady_malloc _) (fun _ => steady_bind (steady_id_write _ _) (fun _ =>
    steady_bind (steady_id_read _) (fun _ => steady_bind (steady_conn_write _ _) (fun _ =>
    steady_bind (steady_register_memory _) (fun _ => steady_bind (steady_post_receives _)
    (fun _ => steady_bind (steady_TEST_NZ_call _ _ ?_) (fun _ => steady_pure _))))))))))))
  · refine steady_of _ (fun w => ?_)
    cases hs : w.s_ctx <;>
    simp [TEST_NZ, ctx_read, callo, id_write, die, hs, Tidy] <;>
    split <;>
    simp_all [Tidy, Entry.tested_failure, Call.tested, Call.reports_failure]
  · intro r; simp [Call.reports_failure]

theorem steady_on_connect_request (id : Nat) : Steady (on_connect_request id) :=
  (enters_on_connect_request id).1

theorem enters_on_connection (context : Nat) :
    Steady (on_connection context) ∧
      ∀ w, w.trace.length < (on_connection context w).world.trace.length := by
  unfold on_connection
  refine enters_of _ _ rfl ?_
  refine steady_bind (steady_conn_read _) (fun _ =>
    steady_bind steady_getpid (fun _ => steady_bind (steady_snprintf _ _ _) (fun _ =>
    steady_bind (steady_print _) (fun _ => steady_bind (steady_mr_lkey _) (fun _ =>
    steady_bind (steady_TEST_NZ_call _ _ ?_) (fun _ => steady_pure _))))))
  intro r; simp [Call.reports_failure]

theorem steady_on_connection (context : Nat) : Steady (on_connection context) :=
  (enters_on_connection context).1

theorem enters_on_disconnect (id : Nat) :
    Steady (on_disconnect id) ∧
      ∀ w, w.trace.length < (on_disconnect id w).world.trace.length := by
  unfold on_disconnect
  refine enters_of _ _ rfl ?_
  exact steady_bind (steady_id_read _) (fun _ =>
    steady_bind (steady_print _) (fun _ => steady_bind (steady_callv _ rfl) (fun _ =>
    steady_bind (steady_conn_read _) (fun _ => steady_bind (steady_call _ rfl) (fun _ =>
    steady_bind (steady_conn_read _) (fun _ => steady_bind (steady_call _ rfl) (fun _ =>
    steady_bind (steady_conn_read _) (fun _ => steady_bind (steady_free _) (fun _ =>
    steady_bind (steady_conn_read _) (fun _ => steady_bind (steady_free _) (fun _ =>
    steady_bind (steady_free_conn _) (fun _ => steady_bind (steady_call _ rfl) (fun _ =>
    steady_pure _)))))))))))))

theorem steady_on_disconnect (id : Nat) : Steady (on_disconnect id) :=
  (enters_on_disconnect id).1

theorem steady_on_event (event : CmEvent) : Steady (on_event event) := by
  unfold on_event
  exact steady_ite _ (steady_on_connect_request _) (steady_ite _
    (steady_bind (steady_id_read _) (fun _ => steady_on_connection _))
    (steady_ite _ (steady_on_disconnect _) (steady_die _)))

set_option maxHeartbeats 4000000 in
theorem on_connect_request_ret_some (w : World) (id : Nat) (x : Context) (hs : w.s_ctx = some x)
    (h : (on_connect_request id w).returned = true) :
    ∃ qp conn s r mrs mrr : Nat, conn ≠ 0 ∧
      (on_connect_request id w).value = some 0 ∧
      (on_connect_request id w).world.trace = w.trace ++
        [.enter (.on_connect_request id),
         .call (.rdma_create_qp id x.pd ⟨x.cq, x.cq, IBV_QPT_RC, 10, 10, 1, 1⟩) 0,
         .call (.malloc .connection) conn,
         .call (.malloc (.bytes BUFFER_SIZE)) s,
         .call (.malloc (.bytes BUFFER_SIZE)) r,
         .call (.ibv_reg_mr x.pd s BUFFER_SIZE (IBV_ACCESS_LOCAL_WRITE ||| IBV_ACCESS_REMOTE_WRITE)) mrs,
         .call (.ibv_reg_mr x.pd r BUFFER_SIZE (IBV_ACCESS_LOCAL_WRITE ||| IBV_ACCESS_REMOTE_WRITE)) mrr,
         .call (.ibv_post_recv qp ⟨conn, 0, ⟨r, BUFFER_SIZE, w.mock.lkey mrr⟩, 1⟩) 0,
         .call (.rdma_accept id) 0] ∧
      (on_connect_request id w).world.conns =
        (conn, ⟨qp, mrr, mrs, r, s⟩) :: w.conns ∧
      (on_connect_request id w).world.ids id = ⟨(w.ids id).verbs, qp, conn⟩ := by
  have h1 : x.ctx = (w.ids id).verbs := by
    by_contra hc
    simp [on_connect_request, build_context, s_ctx_get, log, print, id_read, die, hs, hc] at h
  have h2 : w.mock.status (w.trace.length + 1) = 0 := by
    by_contra hc
    simp [on_connect_request, build_context, build_qp_attr, s_ctx_get, log, print, id_read, die, hs, h1, TEST_NZ, ctx_read, callo, id_write, hc] at h
  have h3 : w.mock.handle (w.trace.length + 2) ≠ 0 := by
    intro hc
    simp [on_connect_request, build_context, build_qp_attr, s_ctx_get, log, print, id_read, die, hs, h1, TEST_NZ, ctx_read, callo, id_write, h2, malloc, conn_write, hc] at h
  have h4 : w.mock.handle (w.trace.length + 5) ≠ 0 := by
    intro hc
    simp [on_connect_request, build_context, build_qp_attr, s_ctx_get, log, print, id_read, die, hs, h1, TEST_NZ, TEST_Z, ctx_read, callo, id_write, h2, malloc, conn_write, h3, register_memory, conn_read, callp, conn_store, hc] at h
  have h5 : w.mock.handle (w.trace.length + 6) ≠ 0 := by
    intro hc
    simp [on_connect_request, build_context, build_qp_attr, s_ctx_get, log, print, id_read, die, hs, h1, TEST_NZ, TEST_Z, ctx_read, callo, id_write, h2, malloc, conn_write, h3, register_memory, conn_read, callp, conn_store, h4, hc] at h
  have h6 : w.mock.status (w.trace.length + 7) = 0 := by
    by_contra hc
    simp [on_connect_request, build_context, build_qp_attr, s_ctx_get, log, print, id_read, die, hs, h1, TEST_NZ, TEST_Z, ctx_read, callo, id_write, h2, malloc, conn_write, h3, register_memory, conn_read, callp, conn_store, h4, h5, post_receives, mr_lkey, call, hc] at h
  have h7 : w.mock.status (w.trace.length + 8) = 0 := by
    by_contra hc
    simp [on_connect_request, build_context, build_qp_attr, s_ctx_get, log, print, id_read, die, hs, h1, TEST_NZ, TEST_Z, ctx_read, callo, id_write, h2, malloc, conn_write, h3, register_memory, conn_read, callp, conn_store, h4, h5, post_receives, mr_lkey, call, h6, hc] at h
  refine ⟨w.mock.handle (w.trace.length + 1), w.mock.handle (w.trace.length + 2),
    w.mock.handle (w.trace.length + 3), w.mock.handle (w.trace.length + 4),
    w.mock.handle (w.trace.length + 5), w.mock.handle (w.trace.length + 6), h3, ?_⟩
  simp [on_connect_request, build_context, build_qp_attr, s_ctx_get, log, print, id_read, die, hs, h1, TEST_NZ, TEST_Z, ctx_read, callo, id_write, h2, malloc, conn_write, h3, register_memory, conn_read, callp, conn_store, h4, h5, post_receives, mr_lkey, call, h6, h7]

set_option maxHeartbeats 4000000 in
theorem on_connect_request_ret_none (w : World) (id : Nat) (hs : w.s_ctx = none)
    (h : (on_connect_request id w).returned = true) :
    ∃ p pd ch cq th qp conn s r mrs mrr : Nat, conn ≠ 0 ∧
      (on_connect_request id w).value = some 0 ∧
      (on_connect_request id w).world.trace = w.trace ++
        [.enter (.on_connect_request id),
         .call (.malloc .context) p,
         .call (.ibv_alloc_pd (w.ids id).verbs) pd,
         .call (.ibv_create_comp_channel (w.ids id).verbs) ch,
         .call (.ibv_create_cq (w.ids id).verbs 10 ch) cq,
         .call (.ibv_req_notify_cq cq 0) 0,
         .call .pthread_create 0,
         .call (.rdma_create_qp id pd ⟨cq, cq, IBV_QPT_RC, 10, 10, 1, 1⟩) 0,
         .call (.malloc .connection) conn,
         .call (.malloc (.bytes BUFFER_SIZE)) s,
         .call (.malloc (.bytes BUFFER_SIZE)) r,
         .call (.ibv_reg_mr pd s BUFFER_SIZE (IBV_ACCESS_LOCAL_WRITE ||| IBV_ACCESS_REMOTE_WRITE)) mrs,
         .call (.ibv_reg_mr pd r BUFFER_SIZE (IBV_ACCESS_LOCAL_WRITE ||| IBV_ACCESS_REMOTE_WRITE)) mrr,
         .call (.ibv_post_recv qp ⟨conn, 0, ⟨r, BUFFER_SIZE, w.mock.lkey mrr⟩, 1⟩) 0,
         .call (.rdma_accept id) 0] ∧
      (on_connect_request id w).world.conns = (conn, ⟨qp, mrr, mrs, r, s⟩) :: w.conns ∧
      (on_connect_request id w).world.ids id = ⟨(w.ids id).verbs, qp, conn⟩ ∧
      (on_connect_request id w).world.s_ctx = some ⟨(w.ids id).verbs, pd, cq, ch, th⟩ := by
  have c1 : w.mock.handle (w.trace.length + 1) ≠ 0 := by
    intro hc
    simp [on_connect_request, build_context, s_ctx_get, s_ctx_init, log, print, id_read, die, hs, malloc, hc] at h
  have c2 : w.mock.handle (w.trace.length + 2) ≠ 0 := by
    intro hc
    simp [on_connect_request, build_context, s_ctx_get, s_ctx_init, log, print, id_read, die, hs, malloc, c1, TEST_Z, ctx_read, callp, ctx_store, hc] at h
  have c3 : w.mock.handle (w.trace.length + 3) ≠ 0 := by
    intro hc
    simp [on_connect_request, build_context, s_ctx_get, s_ctx_init, log, print, id_read, die, hs, malloc, c1, TEST_Z, ctx_read, callp, ctx_store, c2, hc] at h
  have c4 : w.mock.handle (w.trace.length + 4) ≠ 0 := by
    intro hc
    simp [on_connect_request, build_context, s_ctx_get, s_ctx_init, log, print, id_read, die, hs, malloc, c1, TEST_Z, ctx_read, callp, ctx_store, c2, c3, hc] at h
  have c5 : w.mock.status (w.trace.length + 5) = 0 := by
    by_contra hc
    simp [on_connect_request, build_context, s_ctx_get, s_ctx_init, log, print, id_read, die, hs, malloc, c1, TEST_Z, TEST_NZ, ctx_read, callp, call, ctx_store, c2, c3, c4, hc] at h
  have c6 : w.mock.status (w.trace.length + 6) = 0 := by
    by_contra hc
    simp [on_connect_request, build_context, s_ctx_get, s_ctx_init, log, print, id_read, die, hs, malloc, c1, TEST_Z, TEST_NZ, ctx_read, callp, call, callo, ctx_store, c2, c3, c4, c5, hc] at h
  have h2 : w.mock.status (w.trace.length + 7) = 0 := by
    by_contra hc
    simp [on_connect_request, build_context, s_ctx_get, s_ctx_init, log, print, id_read, die, hs, malloc, c1, TEST_Z, TEST_NZ, ctx_read, callp, call, callo, ctx_store, c2, c3, c4, c5, c6, build_qp_attr, id_write, hc] at h
  have h3 : w.mock.handle (w.trace.length + 8) ≠ 0 := by
    intro hc
    simp [on_connect_request, build_context, s_ctx_get, s_ctx_init, log, print, id_read, die, hs, malloc, c1, TEST_Z, TEST_NZ, ctx_read, callp, call, callo, ctx_store, c2, c3, c4, c5, c6, build_qp_attr, id_write, h2, conn_write, hc] at h
  have h4 : w.mock.handle (w.trace.length + 11) ≠ 0 := by
    intro hc
    simp [on_connect_request, build_context, s_ctx_get, s_ctx_init, log, print, id_read, die, hs, malloc, c1, TEST_Z, TEST_NZ, ctx_read, callp, call, callo, ctx_store, c2, c3, c4, c5, c6, build_qp_attr, id_write, h2, conn_write, h3, register_memory, conn_read, conn_store, hc] at h
  have h5 : w.mock.handle (w.trace.length + 12) ≠ 0 := by
    intro hc
    simp [on_connect_request, build_context, s_ctx_get, s_ctx_init, log, print, id_read, die, hs, malloc, c1, TEST_Z, TEST_NZ, ctx_read, callp, call, callo, ctx_store, c2, c3, c4, c5, c6, build_qp_attr, id_write, h2, conn_write, h3, register_memory, conn_read, conn_store, h4, hc] at h
  have h6 : w.mock.status (w.trace.length + 13) = 0 := by
    by_contra hc
    simp [on_connect_request, build_context, s_ctx_get, s_ctx_init, log, print, id_read, die, hs, malloc, c1, TEST_Z, TEST_NZ, ctx_read, callp, call, callo, ctx_store, c2, c3, c4, c5, c6, build_qp_attr, id_write, h2, conn_write, h3, register_memory, conn_read, conn_store, h4, h5, post_receives, mr_lkey, hc] at h
  have h7 : w.mock.status (w.trace.length + 14) = 0 := by
    by_contra hc
    simp [on_connect_request, build_context, s_ctx_get, s_ctx_init, log, print, id_read, die, hs, malloc, c1, TEST_Z, TEST_NZ, ctx_read, callp, call, callo, ctx_store, c2, c3, c4, c5, c6, build_qp_attr, id_write, h2, conn_write, h3, register_memory, conn_read, conn_store, h4, h5, post_receives, mr_lkey, h6, hc] at h
  refine ⟨w.mock.handle (w.trace.length + 1), w.mock.handle (w.trace.length + 2),
    w.mock.handle (w.trace.length + 3), w.mock.handle (w.trace.length + 4),
    w.mock.handle (w.trace.length + 6), w.mock.handle (w.trace.length + 7),
    w.mock.handle (w.trace.length + 8),
    w.mock.handle (w.trace.length + 9), w.mock.handle (w.trace.length + 10),
    w.mock.handle (w.trace.length + 11), w.mock.handle (w.trace.length + 12), h3, ?_⟩
  simp [on_connect_request, build_context, s_ctx_get, s_ctx_init, log, print, id_read, die, hs, malloc, c1, TEST_Z, TEST_NZ, ctx_read, callp, call, callo, ctx_store, c2, c3, c4, c5, c6, build_qp_attr, id_write, h2, conn_write, h3, register_memory, conn_read, conn_store, h4, h5, post_receives, mr_lkey, h6, h7, fresh_context]

/-! ## Release order on disconnect -/

/-- C1: on a disconnected event for an identity whose context is a live Connection,
`on_disconnect` issues exactly the release calls destroy queue pair, deregister the
send then the receive memory region, free the send then the receive buffer, free the
Connection, destroy the identity, in this order, and returns 0, whatever the calls return. -/

theorem on_disconnect_release_order (w : World) (id : Nat) (c : Connection)
    (h0 : (w.ids id).context ≠ 0)
    (h : heap_get (w.ids id).context w.conns = some c) :
    (on_disconnect id w).value = some 0 ∧
    calls (on_disconnect id w).world.trace = calls w.trace ++
      [.rdma_destroy_qp id, .ibv_dereg_mr c.send_mr, .ibv_dereg_mr c.recv_mr,
       .free c.send_region, .free c.recv_region, .free (w.ids id).context,
       .rdma_destroy_id id] := by
  simp [on_disconnect, log, id_read, print, callv, conn_read, call, free, free_conn, h, h0,
    calls_append, calls]

theorem on_disconnect_release_order_witness :
    (one_connection.ids 1).context ≠ 0 ∧
    (on_disconnect 1 one_connection).value = some 0 ∧
    calls (on_disconnect 1 one_connection).world.trace = calls one_connection.trace ++
      [.rdma_destroy_qp 1, .ibv_dereg_mr 12, .ibv_dereg_mr 11, .free 70, .free 60, .free 50,
       .rdma_destroy_id 1] :=
  ⟨by decide, on_disconnect_release_order one_connection 1
    { qp := 9, recv_mr := 11, send_mr := 12, recv_region := 60, send_region := 70 }
    (by decide) (by rfl)⟩

/-! ## Receive before accept -/

/-- C2: whenever `on_connect_request` returns (no fatal error), it returns 0 and the
library calls it made end with one `ibv_post_recv` on the queue pair of the new
Connection (the work request carries the Connection as identifier) immediately
followed by one `rdma_accept` on the same identity; no other receive is posted and no
other accept is issued, so the receive is posted strictly before the accept. -/
theorem receive_posted_before_accept (w : World) (id : Nat)
    (h : (on_connect_request id w).returned = true) :
    (on_connect_request id w).value = some 0 ∧
    ∃ (before : List Call) (c : Connection) (wr : RecvWr),
      heap_get ((on_connect_request id w).world.ids id).context
        (on_connect_request id w).world.conns = some c ∧
      c.qp = ((on_connect_request id w).world.ids id).qp ∧
      wr.wr_id = ((on_connect_request id w).world.ids id).context ∧
      calls (on_connect_request id w).world.trace =
        calls w.trace ++ before ++ [.ibv_post_recv c.qp wr, .rdma_accept id] ∧
      ∀ x ∈ before, x.is_post_recv = false ∧ x.is_accept = false := by
  cases hs : w.s_ctx with
  | some x =>
    obtain ⟨qp, conn, s, r, mrs, mrr, hconn, hv, ht, hc, hi⟩ :=
      on_connect_request_ret_some w id x hs h
    refine ⟨hv,
      [.rdma_create_qp id x.pd ⟨x.cq, x.cq, IBV_QPT_RC, 10, 10, 1, 1⟩, .malloc .connection,
       .malloc (.bytes BUFFER_SIZE), .malloc (.bytes BUFFER_SIZE),
       .ibv_reg_mr x.pd s BUFFER_SIZE (IBV_ACCESS_LOCAL_WRITE ||| IBV_ACCESS_REMOTE_WRITE),
       .ibv_reg_mr x.pd r BUFFER_SIZE (IBV_ACCESS_LOCAL_WRITE ||| IBV_ACCESS_REMOTE_WRITE)],
      ⟨qp, mrr, mrs, r, s⟩, ⟨conn, 0, ⟨r, BUFFER_SIZE, w.mock.lkey mrr⟩, 1⟩, ?_⟩
    rw [ht, hc, hi]
    refine ⟨by simp, rfl, rfl, ?_, ?_⟩
    · simp [calls_append, calls]
    · simp [Call.is_post_recv, Call.is_accept]
  | none =>
    obtain ⟨p, pd, ch, cq, th, qp, conn, s, r, mrs, mrr, hconn, hv, ht, hc, hi, -⟩ :=
      on_connect_request_ret_none w id hs h
    refine ⟨hv,
      [.malloc .context, .ibv_alloc_pd (w.ids id).verbs,
       .ibv_create_comp_channel (w.ids id).verbs, .ibv_create_cq (w.ids id).verbs 10 ch,
       .ibv_req_notify_cq cq 0, .pthread_create,
       .rdma_create_qp id pd ⟨cq, cq, IBV_QPT_RC, 10, 10, 1, 1⟩, .malloc .connection,
       .malloc (.bytes BUFFER_SIZE), .malloc (.bytes BUFFER_SIZE),
       .ibv_reg_mr pd s BUFFER_SIZE (IBV_ACCESS_LOCAL_WRITE ||| IBV_ACCESS_REMOTE_WRITE),
       .ibv_reg_mr pd r BUFFER_SIZE (IBV_ACCESS_LOCAL_WRITE ||| IBV_ACCESS_REMOTE_WRITE)],
      ⟨qp, mrr, mrs, r, s⟩, ⟨conn, 0, ⟨r, BUFFER_SIZE, w.mock.lkey mrr⟩, 1⟩, ?_⟩
    rw [ht, hc, hi]
    refine ⟨by simp, rfl, rfl, ?_, ?_⟩
    · simp [calls_append, calls]
    · simp [Call.is_post_recv, Call.is_accept]

theorem receive_posted_before_accept_witness :
    (on_connect_request 1 (World.start calm blank_ids)).value = some 0 ∧
    ∃ (before : List Call) (c : Connection) (wr : RecvWr),
      heap_get ((on_connect_request 1 (World.start calm blank_ids)).world.ids 1).context
        (on_connect_request 1 (World.start calm blank_ids)).world.conns = some c ∧
      c.qp = ((on_connect_request 1 (World.start calm blank_ids)).world.ids 1).qp ∧
      wr.wr_id = ((on_connect_request 1 (World.start calm blank_ids)).world.ids 1).context ∧
      calls (on_connect_request 1 (World.start calm blank_ids)).world.trace =
        calls (World.start calm blank_ids).trace ++ before ++
          [.ibv_post_recv c.qp wr, .rdma_accept 1] ∧
      ∀ x ∈ before, x.is_post_recv = false ∧ x.is_accept = false :=
  receive_posted_before_accept (World.start calm blank_ids) 1 (by rfl)

/-! ## The resource context is built once -/

theorem build_context_same (w : World) (c : Context) (hs : w.s_ctx = some c) :
    build_context c.ctx w = .ret () w := by
  simp [build_context, s_ctx_get, hs]

theorem build_context_other (w : World) (c : Context) (v : Nat) (hs : w.s_ctx = some c)
    (hv : v ≠ c.ctx) :
    build_context v w = .exit EXIT_FAILURE
      { w with stderr := w.stderr ++ ["cannot handle events in more than one context."] } := by
  have hv2 : ¬ c.ctx = v := fun h => hv h.symm
  simp [build_context, s_ctx_get, hs, die, hv2]

set_option maxHeartbeats 1000000 in
theorem build_context_first (w : World) (v : Nat) (hs : w.s_ctx = none)
    (h : (build_context v w).returned = true) :
    ∃ p pd ch cq th : Nat, p ≠ 0 ∧ pd ≠ 0 ∧ ch ≠ 0 ∧ cq ≠ 0 ∧
      (build_context v w).world.s_ctx = some ⟨v, pd, cq, ch, th⟩ ∧
      (build_context v w).world.trace = w.trace ++
        [.call (.malloc .context) p, .call (.ibv_alloc_pd v) pd,
         .call (.ibv_create_comp_channel v) ch, .call (.ibv_create_cq v 10 ch) cq,
         .call (.ibv_req_notify_cq cq 0) 0, .call .pthread_create 0] := by
  have c1 : w.mock.handle w.trace.length ≠ 0 := by
    intro hc
    simp [build_context, s_ctx_get, s_ctx_init, hs, malloc, hc] at h
  have c2 : w.mock.handle (w.trace.length + 1) ≠ 0 := by
    intro hc
    simp [build_context, s_ctx_get, s_ctx_init, die, hs, malloc, c1, TEST_Z, ctx_read, callp,
      ctx_store, hc] at h
  have c3 : w.mock.handle (w.trace.length + 2) ≠ 0 := by
    intro hc
    simp [build_context, s_ctx_get, s_ctx_init, die, hs, malloc, c1, TEST_Z, ctx_read, callp,
      ctx_store, c2, hc] at h
  have c4 : w.mock.handle (w.trace.length + 3) ≠ 0 := by
    intro hc
    simp [build_context, s_ctx_get, s_ctx_init, die, hs, malloc, c1, TEST_Z, ctx_read, callp,
      ctx_store, c2, c3, hc] at h
  have c5 : w.mock.status (w.trace.length + 4) = 0 := by
    by_contra hc
    simp [build_context, s_ctx_get, s_ctx_init, die, hs, malloc, c1, TEST_Z, TEST_NZ, ctx_read,
      callp, call, ctx_store, c2, c3, c4, hc] at h
  have c6 : w.mock.status (w.trace.length + 5) = 0 := by
    by_contra hc
    simp [build_context, s_ctx_get, s_ctx_init, die, hs, malloc, c1, TEST_Z, TEST_NZ, ctx_read,
      callp, call, callo, ctx_store, c2, c3, c4, c5, hc] at h
  refine ⟨w.mock.handle w.trace.length, w.mock.handle (w.trace.length + 1),
    w.mock.handle (w.trace.length + 2), w.mock.handle (w.trace.length + 3),
    w.mock.handle (w.trace.length + 5), c1, c2, c3, c4, ?_⟩
  simp [build_context, s_ctx_get, s_ctx_init, die, hs, malloc, c1, TEST_Z, TEST_NZ, ctx_read,
    callp, call, callo, ctx_store, c2, c3, c4, c5, c6, fresh_context]

theorem build_contexts_same (v : Nat) (vs : List Nat) (hvs : ∀ x ∈ vs, x = v) (w : World)
    (c : Context) (hs : w.s_ctx = some c) (hc : c.ctx = v) :
    build_contexts vs w = .ret () w := by
  induction vs with
  | nil => simp [build_contexts]
  | cons x xs ih =>
    have hx : x = c.ctx := by rw [hc]; exact hvs x (List.mem_cons_self _ _)
    have ih2 := ih (fun y hy => hvs y (List.mem_cons_of_mem _ hy))
    simp [build_contexts, hx, build_context_same w c hs, ih2]

theorem build_contexts_other (v d : Nat) (before after : List Nat) (hvs : ∀ x ∈ before, x = v)
    (hd : d ≠ v) (w : World) (c : Context) (hs : w.s_ctx = some c) (hc : c.ctx = v) :
    build_contexts (before ++ d :: after) w = .exit EXIT_FAILURE
      { w with stderr := w.stderr ++ ["cannot handle events in more than one context."] } := by
  induction before with
  | nil =>
    have hd2 : d ≠ c.ctx := by rw [hc]; exact hd
    simp [build_contexts, build_context_other w c d hs hd2]
  | cons x xs ih =>
    have hx : x = c.ctx := by rw [hc]; exact hvs x (List.mem_cons_self _ _)
    have ih2 := ih (fun y hy => hvs y (List.mem_cons_of_mem _ hy))
    simp only [List.cons_append, build_contexts, bind_apply, hx, build_context_same w c hs,
      Outcome.bind_ret]
    exact ih2

/-- C3: in every sequence of `build_context` calls that starts without a context, the first
call (when it returns) creates the context by one allocation followed by protection domain,
completion channel, completion queue, notification request and poller thread; every later
call, in any state holding that context, for the same endpoint returns without any call or
change, also repeatedly; and a later call for another endpoint ends the process with the
non-zero status `EXIT_FAILURE` after printing a diagnostic, with no call made and the
context unchanged. -/
theorem build_context_once (w : World) (v : Nat) (hs : w.s_ctx = none)
    (h : (build_context v w).returned = true) :
    (∃ pd ch cq th : Nat, pd ≠ 0 ∧ ch ≠ 0 ∧ cq ≠ 0 ∧
      (build_context v w).world.s_ctx = some ⟨v, pd, cq, ch, th⟩ ∧
      calls (build_context v w).world.trace = calls w.trace ++
        [.malloc .context, .ibv_alloc_pd v, .ibv_create_comp_channel v,
         .ibv_create_cq v 10 ch, .ibv_req_notify_cq cq 0, .pthread_create]) ∧
    (∀ w2 : World, w2.s_ctx = (build_context v w).world.s_ctx →
      ∀ vs : List Nat, (∀ x ∈ vs, x = v) → build_contexts vs w2 = .ret () w2) ∧
    (∀ w2 : World, w2.s_ctx = (build_context v w).world.s_ctx →
      ∀ (before after : List Nat) (d : Nat), (∀ x ∈ before, x = v) → d ≠ v →
        build_contexts (before ++ d :: after) w2 = .exit EXIT_FAILURE
          { w2 with stderr := w2.stderr ++ ["cannot handle events in more than one context."] }) ∧
    EXIT_FAILURE ≠ 0 := by
  obtain ⟨p, pd, ch, cq, th, hp, hpd, hch, hcq, hctx, ht⟩ := build_context_first w v hs h
  refine ⟨⟨pd, ch, cq, th, hpd, hch, hcq, hctx, ?_⟩, ?_, ?_, by decide⟩
  · rw [ht]; simp [calls_append, calls]
  · intro w2 h2 vs hvs
    exact build_contexts_same v vs hvs w2 _ (h2.trans hctx) rfl
  · intro w2 h2 before after d hvs hd
    exact build_contexts_other v d before after hvs hd w2 _ (h2.trans hctx) rfl

theorem build_context_once_witness :
    (∃ pd ch cq th : Nat, pd ≠ 0 ∧ ch ≠ 0 ∧ cq ≠ 0 ∧
      (build_context 7 (World.start calm blank_ids)).world.s_ctx = some ⟨7, pd, cq, ch, th⟩ ∧
      calls (build_context 7 (World.start calm blank_ids)).world.trace =
        calls (World.start calm blank_ids).trace ++
        [.malloc .context, .ibv_alloc_pd 7, .ibv_create_comp_channel 7,
         .ibv_create_cq 7 10 ch, .ibv_req_notify_cq cq 0, .pthread_create]) ∧
    (∀ w2 : World, w2.s_ctx = (build_context 7 (World.start calm blank_ids)).world.s_ctx →
      ∀ vs : List Nat, (∀ x ∈ vs, x = 7) → build_contexts vs w2 = .ret () w2) ∧
    (∀ w2 : World, w2.s_ctx = (build_context 7 (World.start calm blank_ids)).world.s_ctx →
      ∀ (before after : List Nat) (d : Nat), (∀ x ∈ before, x = 7) → d ≠ 7 →
        build_contexts (before ++ d :: after) w2 = .exit EXIT_FAILURE
          { w2 with stderr := w2.stderr ++ ["cannot handle events in more than one context."] }) ∧
    EXIT_FAILURE ≠ 0 :=
  build_context_once (World.start calm blank_ids) 7 (by rfl) (by rfl)

/-! ## Balance of registrations -/

theorem registrations_append (s t : List Entry) :
    registrations (s ++ t) = registrations s + registrations t := by
  simp [registrations, calls_append]

theorem deregistrations_append (s t : List Entry) :
    deregistrations (s ++ t) = deregistrations s + deregistrations t := by
  simp [deregistrations, calls_append]

/-- Effect of a returning `on_connect_request` on the counts. -/
theorem on_connect_request_counts (w : World) (id : Nat)
    (h : (on_connect_request id w).returned = true) :
    registrations (on_connect_request id w).world.trace = registrations w.trace + 2 ∧
    deregistrations (on_connect_request id w).world.trace = deregistrations w.trace ∧
    (on_connect_request id w).world.conns.length = w.conns.length + 1 := by
  cases hs : w.s_ctx with
  | some x =>
    obtain ⟨qp, conn, s, r, mrs, mrr, -, -, ht, hc, -⟩ := on_connect_request_ret_some w id x hs h
    rw [ht, hc, registrations_append, deregistrations_append]
    simp [registrations, deregistrations, calls, Call.is_reg_mr, Call.is_dereg_mr]
  | none =>
    obtain ⟨p, pd, ch, cq, th, qp, conn, s, r, mrs, mrr, -, -, ht, hc, -⟩ :=
      on_connect_request_ret_none w id hs h
    rw [ht, hc, registrations_append, deregistrations_append]
    simp [registrations, deregistrations, calls, Call.is_reg_mr, Call.is_dereg_mr]

theorem neutral_pure {α : Type} (a : α) : Neutral (pure a : M α) := by
  intro w; simp

theorem neutral_bind {α β : Type} {m : M α} {f : α → M β} (hm : Neutral m)
    (hf : ∀ a, Neutral (f a)) : Neutral (m >>= f) := by
  intro w
  have h := hm w
  simp only [bind_apply]
  cases hmw : m w with
  | ret a w1 =>
    rw [hmw] at h
    simp only [Outcome.bind_ret, Outcome.world_ret] at h ⊢
    have h2 := hf a w1
    exact ⟨h2.1.trans h.1, h2.2.1.trans h.2.1, h2.2.2.trans h.2.2⟩
  | exit s w1 => rw [hmw] at h; simpa using h
  | fault e w1 => rw [hmw] at h; simpa using h
  | blocked w1 => rw [hmw] at h; simpa using h

theorem neutral_of_quiet {α : Type} (m : M α)
    (h : ∀ w, (m w).world.conns = w.conns ∧ (m w).world.trace = w.trace) : Neutral m := by
  intro w
  obtain ⟨h1, h2⟩ := h w
  rw [h1, h2]
  exact ⟨rfl, rfl, rfl⟩

theorem neutral_log (e : Entry) (he : ∀ c r, e = .call c r → c.is_reg_mr = false ∧
    c.is_dereg_mr = false) : Neutral (log e) := by
  intro w
  cases e with
  | enter h => simp [log, registrations, deregistrations, calls_append, calls]
  | call c r =>
    obtain ⟨h1, h2⟩ := he c r rfl
    simp [log, registrations, deregistrations, calls_append, calls, h1, h2]

theorem neutral_call (c : Call) (h1 : c.is_reg_mr = false) (h2 : c.is_dereg_mr = false) :
    Neutral (call c) := by
  intro w
  simp [call, registrations, deregistrations, calls_append, calls, h1, h2]

theorem neutral_TEST_NZ_call (c : Call) (t : String) (h1 : c.is_reg_mr = false)
    (h2 : c.is_dereg_mr = false) : Neutral (TEST_NZ (call c) t) := by
  intro w
  simp only [TEST_NZ, call, die, bind_apply, Outcome.bind_ret, M.ite_apply, pure_apply]
  split <;> simp [registrations, deregistrations, calls_append, calls, h1, h2]

theorem neutral_conn_read (p : Nat) : Neutral (conn_read p) := by
  apply neutral_of_quiet; intro w; unfold conn_read
  split
  · simp
  · split <;> simp

theorem neutral_mr_lkey (mr : Nat) : Neutral (mr_lkey mr) := by
  apply neutral_of_quiet; intro w; unfold mr_lkey
  split <;> simp

theorem neutral_snprintf (buf size : Nat) (s : List Nat) : Neutral (snprintf buf size s) := by
  apply neutral_of_quiet; intro w; unfold snprintf
  split
  · simp
  · simp only
    split
    · simp
    · split
      · simp
      · split <;> simp

/-- Effect of `on_connection` on the counts, however it ends. -/
theorem on_connection_neutral (context : Nat) : Neutral (on_connection context) := by
  unfold on_connection
  exact neutral_bind (neutral_log _ (by intro c r h; cases h)) (fun _ =>
    neutral_bind (neutral_conn_read _) (fun _ =>
    neutral_bind (neutral_of_quiet _ (fun _ => ⟨rfl, rfl⟩)) (fun _ =>
    neutral_bind (neutral_snprintf _ _ _) (fun _ =>
    neutral_bind (neutral_of_quiet _ (fun _ => ⟨rfl, rfl⟩)) (fun _ =>
    neutral_bind (neutral_mr_lkey _) (fun _ =>
    neutral_bind (neutral_TEST_NZ_call _ _ rfl rfl) (fun _ => neutral_pure _)))))))

/-- Effect of a returning `on_disconnect` on the counts. -/
theorem on_disconnect_counts (w : World) (id : Nat)
    (h : (on_disconnect id w).returned = true) :
    registrations (on_disconnect id w).world.trace = registrations w.trace ∧
    deregistrations (on_disconnect id w).world.trace = deregistrations w.trace + 2 ∧
    (on_disconnect id w).world.conns.length + 1 = w.conns.length := by
  have h0 : (w.ids id).context ≠ 0 := by
    intro hc
    simp [on_disconnect, log, id_read, print, callv, conn_read, hc] at h
  cases hg : heap_get (w.ids id).context w.conns with
  | none => simp [on_disconnect, log, id_read, print, callv, conn_read, h0, hg] at h
  | some c =>
    have hl := heap_free_length _ c _ hg
    simp [on_disconnect, log, id_read, print, callv, conn_read, call, free, free_conn, h0, hg,
      registrations, deregistrations, calls_append, calls, Call.is_reg_mr, Call.is_dereg_mr, hl]

theorem neutral_TEST_Z_callp (c : Call) (t : String) (h1 : c.is_reg_mr = false)
    (h2 : c.is_dereg_mr = false) : Neutral (TEST_Z (callp c) t) := by
  intro w
  simp only [TEST_Z, callp, die, bind_apply, Outcome.bind_ret, M.ite_apply, pure_apply]
  split <;> simp [registrations, deregistrations, calls_append, calls, h1, h2]

theorem neutral_TEST_NZ_out_callo (c : Call) (t : String) (h1 : c.is_reg_mr = false)
    (h2 : c.is_dereg_mr = false) : Neutral (TEST_NZ_out (callo c) t) := by
  intro w
  simp only [TEST_NZ_out, callo, die, bind_apply, Outcome.bind_ret, M.ite_apply, pure_apply]
  split <;> simp [registrations, deregistrations, calls_append, calls, h1, h2]

theorem blocks_eq_true {α : Type} (o : Outcome α) (h : o.blocks = true) :
    o = .blocked o.world := by
  cases o <;> simp_all [Outcome.blocks]

/-- A blocked sequence whose first step is neutral and never waits is blocked in the rest. -/
theorem blocked_after_neutral {α β : Type} {m : M α} {f : α → M β} {w w2 : World}
    (h : (m >>= f) w = .blocked w2) (hm : Neutral m) (hb : ∀ w, (m w).blocks = false) :
    ∃ a w1, f a w1 = .blocked w2 ∧ w1.conns = w.conns ∧
      registrations w1.trace = registrations w.trace ∧
      deregistrations w1.trace = deregistrations w.trace := by
  have h1 := hm w
  have h2 := hb w
  simp only [bind_apply] at h
  cases hmw : m w with
  | ret a w1 =>
    rw [hmw] at h h1
    exact ⟨a, w1, h, h1⟩
  | exit s w1 => rw [hmw] at h; cases h
  | fault e w1 => rw [hmw] at h; cases h
  | blocked w1 => rw [hmw] at h2; cases h2

theorem open_ids_step (live : List Nat) (e : CmEvent) (es : List CmEvent) (live2 : List Nat)
    (h : open_ids live (e :: es) = some live2) :
    (e.event = RDMA_CM_EVENT_CONNECT_REQUEST ∧ open_ids (e.id :: live) es = some live2) ∨
    (e.event = RDMA_CM_EVENT_DISCONNECTED ∧ e.id ∈ live ∧
      open_ids (live.erase e.id) es = some live2) ∨
    (e.event ≠ RDMA_CM_EVENT_CONNECT_REQUEST ∧ e.event ≠ RDMA_CM_EVENT_DISCONNECTED ∧
      open_ids live es = some live2) := by
  unfold open_ids at h
  by_cases h1 : e.event = RDMA_CM_EVENT_CONNECT_REQUEST
  · left; simp only [h1, if_true] at h; exact ⟨h1, h⟩
  · right
    simp only [h1, if_false] at h
    by_cases h2 : e.event = RDMA_CM_EVENT_DISCONNECTED
    · left
      simp only [h2, if_true] at h
      by_cases h3 : e.id ∈ live
      · simp only [h3, if_true] at h; exact ⟨h2, h3, h⟩
      · simp [h3] at h
    · right; simp only [h2, if_false] at h; exact ⟨h1, h2, h⟩

/-- The loop of `main` keeps the balance of registrations while it serves well-formed events. -/
theorem main_loop_counts (ec : Nat) (events : List CmEvent) :
    ∀ (live live2 : List Nat) (w w2 : World), open_ids live events = some live2 →
      main_loop ec events w = .blocked w2 →
      registrations w.trace = deregistrations w.trace + 2 * live.length →
      w.conns.length = live.length →
      registrations w2.trace = deregistrations w2.trace + 2 * live2.length ∧
        w2.conns.length = live2.length := by
  induction events with
  | nil =>
    intro live live2 w w2 ho hb hr hc
    simp only [open_ids, Option.some.injEq] at ho
    subst ho
    simp only [main_loop, wait, bind_apply, pure_apply] at hb
    split at hb
    · simp only [Outcome.bind_blocked, Outcome.blocked.injEq] at hb
      subst hb
      exact ⟨hr, hc⟩
    · simp at hb
  | cons e es ih =>
    intro live live2 w w2 ho hb hr hc
    unfold main_loop at hb
    obtain ⟨r, w1, hb, hc1, hr1, hd1⟩ :=
      blocked_after_neutral hb (neutral_call _ rfl rfl) (noblock_of_steady (steady_call _ rfl))
    by_cases hr0 : r = 0
    · simp only [hr0, if_true] at hb
      obtain ⟨_, w3, hb, hc3, hr3, hd3⟩ :=
        blocked_after_neutral hb (neutral_call _ rfl rfl) (noblock_of_steady (steady_call _ rfl))
      have hr' : registrations w3.trace = deregistrations w3.trace + 2 * live.length := by
        rw [hr3, hr1, hd3, hd1]; exact hr
      have hc' : w3.conns.length = live.length := by
        rw [hc3, hc1]; exact hc
      simp only [bind_apply] at hb
      have hnb := (steady_on_event e).2 w3
      cases hev : on_event e w3 with
      | blocked w4 => rw [hev] at hnb; cases hnb
      | exit s w4 => rw [hev] at hb; cases hb
      | fault f w4 => rw [hev] at hb; cases hb
      | ret r4 w4 =>
        rw [hev] at hb
        simp only [Outcome.bind_ret, M.ite_apply, pure_apply] at hb
        by_cases hr4 : r4 = 0
        · simp only [hr4, ne_eq, not_true_eq_false, if_false] at hb
          rcases open_ids_step live e es live2 ho with ⟨hk, ho2⟩ | ⟨hk, hm, ho2⟩ | ⟨hk1, hk2, ho2⟩
          · rw [on_event_connect_request e w3 hk] at hev
            have hret : (on_connect_request e.id w3).returned = true := by rw [hev]; rfl
            obtain ⟨e1, e2, e3⟩ := on_connect_request_counts w3 e.id hret
            rw [hev] at e1 e2 e3
            simp only [Outcome.world_ret] at e1 e2 e3
            refine ih (e.id :: live) live2 w4 w2 ho2 hb ?_ ?_
            · simp only [List.length_cons]; omega
            · simp only [List.length_cons]; omega
          · rw [on_event_disconnected e w3 hk] at hev
            have hret : (on_disconnect e.id w3).returned = true := by rw [hev]; rfl
            obtain ⟨e1, e2, e3⟩ := on_disconnect_counts w3 e.id hret
            rw [hev] at e1 e2 e3
            simp only [Outcome.world_ret] at e1 e2 e3
            have hlen := List.length_erase_of_mem hm
            have hpos : 0 < live.length := List.length_pos_of_mem hm
            refine ih (live.erase e.id) live2 w4 w2 ho2 hb ?_ ?_
            · rw [hlen]; omega
            · rw [hlen]; omega
          · by_cases hk3 : e.event = RDMA_CM_EVENT_ESTABLISHED
            · rw [on_event_established e w3 hk3] at hev
              obtain ⟨e3, e1, e2⟩ := on_connection_neutral (w3.ids e.id).context w3
              rw [hev] at e1 e2 e3
              simp only [Outcome.world_ret] at e1 e2 e3
              refine ih live live2 w4 w2 ho2 hb ?_ ?_
              · rw [e1, e2]; exact hr'
              · rw [e3]; exact hc'
            · rw [on_event_unknown e w3 hk1 hk3 hk2] at hev
              cases hev
        · simp [hr4] at hb
    · simp [hr0] at hb

/-- C4: when `main` has served a well-formed sequence of connection-management events
without a fatal error and waits for the next one, the number of memory-region
registrations minus the number of deregistrations is twice the number of Connections
not yet Closed, which is also the number of live Connection objects; hence the two
counts are equal once every Connection is Closed. -/
theorem registrations_balance (mock : Mock) (ids : Nat → CmId) (events : List CmEvent)
    (hwf : well_formed events = true)
    (h : (main events (World.start mock ids)).blocks = true) :
    registrations (main events (World.start mock ids)).world.trace =
      deregistrations (main events (World.start mock ids)).world.trace +
        2 * not_closed events ∧
    (main events (World.start mock ids)).world.conns.length = not_closed events ∧
    (not_closed events = 0 →
      registrations (main events (World.start mock ids)).world.trace =
        deregistrations (main events (World.start mock ids)).world.trace) := by
  have hb := blocks_eq_true _ h
  generalize (main events (World.start mock ids)).world = w2 at hb ⊢
  obtain ⟨live2, ho⟩ : ∃ live2, open_ids [] events = some live2 := by
    unfold well_formed at hwf
    exact Option.isSome_iff_exists.1 hwf
  have hn : not_closed events = live2.length := by simp [not_closed, ho]
  unfold main at hb
  obtain ⟨ec, w1, hb, c1, r1, d1⟩ := blocked_after_neutral hb
    (neutral_TEST_Z_callp _ _ rfl rfl) (noblock_of_steady (steady_TEST_Z_callp _ _ (by intro r; simp [Call.reports_failure])))
  obtain ⟨listener, w1, hb, c2, r2, d2⟩ := blocked_after_neutral hb
    (neutral_TEST_NZ_out_callo _ _ rfl rfl) (noblock_of_steady (steady_TEST_NZ_out_callo _ _ (by intro r; simp [Call.reports_failure])))
  obtain ⟨_, w1, hb, c3, r3, d3⟩ := blocked_after_neutral hb
    (neutral_TEST_NZ_call _ _ rfl rfl) (noblock_of_steady (steady_TEST_NZ_call _ _ (by intro r; simp [Call.reports_failure])))
  obtain ⟨_, w1, hb, c4, r4, d4⟩ := blocked_after_neutral hb
    (neutral_TEST_NZ_call _ _ rfl rfl) (noblock_of_steady (steady_TEST_NZ_call _ _ (by intro r; simp [Call.reports_failure])))
  obtain ⟨_, w1, hb, c5, r5, d5⟩ := blocked_after_neutral hb
    (neutral_call _ rfl rfl) (noblock_of_steady (steady_call _ rfl))
  obtain ⟨_, w1, hb, c6, r6, d6⟩ := blocked_after_neutral hb
    (neutral_of_quiet _ (fun _ => ⟨rfl, rfl⟩)) (noblock_of_steady (steady_ntohs _))
  obtain ⟨_, w1, hb, c7, r7, d7⟩ := blocked_after_neutral hb
    (neutral_of_quiet _ (fun _ => ⟨rfl, rfl⟩)) (noblock_of_steady (steady_print _))
  simp only [bind_apply] at hb
  cases hml : main_loop ec events w1 with
  | ret a w3 => rw [hml] at hb; simp [call, callv] at hb
  | exit s w3 => rw [hml] at hb; cases hb
  | fault f w3 => rw [hml] at hb; cases hb
  | blocked w3 =>
    rw [hml] at hb
    simp only [Outcome.bind_blocked, Outcome.blocked.injEq] at hb
    subst hb
    have hr0 : registrations w1.trace = deregistrations w1.trace + 2 * ([] : List Nat).length := by
      rw [r7, r6, r5, r4, r3, r2, r1, d7, d6, d5, d4, d3, d2, d1]
      rfl
    have hc0 : w1.conns.length = ([] : List Nat).length := by
      rw [c7, c6, c5, c4, c3, c2, c1]
      rfl
    obtain ⟨e1, e2⟩ := main_loop_counts ec events [] live2 w1 w3 ho hml hr0 hc0
    rw [hn]
    exact ⟨e1, e2, fun h0 => by rw [e1, h0]; rfl⟩

theorem registrations_balance_witness :
    registrations (main [⟨1, 4⟩, ⟨1, 9⟩, ⟨2, 4⟩, ⟨1, 10⟩] (World.start calm blank_ids)).world.trace =
      deregistrations
          (main [⟨1, 4⟩, ⟨1, 9⟩, ⟨2, 4⟩, ⟨1, 10⟩] (World.start calm blank_ids)).world.trace +
        2 * not_closed [⟨1, 4⟩, ⟨1, 9⟩, ⟨2, 4⟩, ⟨1, 10⟩] ∧
    (main [⟨1, 4⟩, ⟨1, 9⟩, ⟨2, 4⟩, ⟨1, 10⟩] (World.start calm blank_ids)).world.conns.length =
      not_closed [⟨1, 4⟩, ⟨1, 9⟩, ⟨2, 4⟩, ⟨1, 10⟩] ∧
    (not_closed [⟨1, 4⟩, ⟨1, 9⟩, ⟨2, 4⟩, ⟨1, 10⟩] = 0 →
      registrations
          (main [⟨1, 4⟩, ⟨1, 9⟩, ⟨2, 4⟩, ⟨1, 10⟩] (World.start calm blank_ids)).world.trace =
        deregistrations
          (main [⟨1, 4⟩, ⟨1, 9⟩, ⟨2, 4⟩, ⟨1, 10⟩] (World.start calm blank_ids)).world.trace) :=
  registrations_balance calm blank_ids [⟨1, 4⟩, ⟨1, 9⟩, ⟨2, 4⟩, ⟨1, 10⟩] (by decide) (by decide!)

/-! ## Reading the receive buffer -/

/-- A block without a zero byte: the `%s` scan leaves it, after one read beyond its end. -/
theorem cstr_unterminated (blk : List Nat) (h : ∀ b ∈ blk, b ≠ 0) :
    cstr blk = none ∧ cstr_reads blk = blk.length + 1 := by
  induction blk with
  | nil => exact ⟨rfl, rfl⟩
  | cons b bs ih =>
    have hb : b ≠ 0 := h b (List.mem_cons_self _ _)
    obtain ⟨h1, h2⟩ := ih (fun x hx => h x (List.mem_cons_of_mem _ hx))
    simp [cstr, cstr_reads, hb, h1, h2]

/-- A block with a zero byte: the text printed is a proper initial part of the block. -/
theorem cstr_terminated (blk s : List Nat) (h : cstr blk = some s) :
    s <+: blk ∧ s.length < blk.length ∧ cstr_reads blk = s.length + 1 := by
  induction blk generalizing s with
  | nil => cases h
  | cons b bs ih =>
    by_cases hb : b = 0
    · simp only [cstr, hb, if_true, Option.some.injEq] at h
      subst h
      simp [cstr_reads, hb]
    · simp only [cstr, hb, if_false, Option.map_eq_some'] at h
      obtain ⟨t, ht, rfl⟩ := h
      obtain ⟨h1, h2, h3⟩ := ih t ht
      refine ⟨?_, ?_, ?_⟩
      · obtain ⟨r, hr⟩ := h1
        exact ⟨r, by simp [hr]⟩
      · simp only [List.length_cons]; omega
      · simp [cstr_reads, hb, h3]

/-- A successful receive completion whose Connection has a receive buffer without a zero
byte: `on_completion` reads past the end of the buffer. -/
theorem on_completion_overrun (w : World) (wc : Wc) (c : Connection) (blk : List Nat)
    (hst : wc.status = IBV_WC_SUCCESS) (hop : wc.opcode &&& IBV_WC_RECV ≠ 0)
    (h0 : wc.wr_id ≠ 0) (hc : heap_get wc.wr_id w.conns = some c) (hr : c.recv_region ≠ 0)
    (hb : heap_get c.recv_region w.bufs = some blk) (hz : ∀ b ∈ blk, b ≠ 0) :
    (on_completion wc w).fault_of = some (.overrun c.recv_region blk.length) ∧
    cstr_reads blk = blk.length + 1 := by
  obtain ⟨h1, h2⟩ := cstr_unterminated blk hz
  refine ⟨?_, h2⟩
  simp [on_completion, log, conn_read, read_string, hst, hop, h0, hc, hr, hb, h1,
    Outcome.fault_of]

/-- C5 (the code does not keep to it): for the successful receive completion of a
Connection whose 1024-byte receive buffer holds no zero byte, `on_completion` scans
1025 bytes, the last one at offset 1024, past the end of the buffer, and delivers no
message. -/
theorem on_completion_reads_past_unterminated_buffer :
    heap_get 50 unterminated.conns = some ⟨9, 11, 12, 60, 70⟩ ∧
    heap_get 60 unterminated.bufs = some (List.replicate BUFFER_SIZE 65) ∧
    (List.replicate BUFFER_SIZE 65).length = BUFFER_SIZE ∧
    (on_completion ⟨50, IBV_WC_SUCCESS, IBV_WC_RECV⟩ unterminated).fault_of =
      some (.overrun 60 BUFFER_SIZE) ∧
    cstr_reads (List.replicate BUFFER_SIZE 65) = BUFFER_SIZE + 1 ∧
    (on_completion ⟨50, IBV_WC_SUCCESS, IBV_WC_RECV⟩ unterminated).world.stdout = [] := by
  decide!

/-! ## The send on establishment -/

/-- C6: on an established event for a live Connection with its send buffer and send memory
region, for every process id, `on_connection` makes exactly one library call, an
`ibv_post_send` on the queue pair of the Connection whose work request has opcode SEND,
flags exactly SIGNALED and one scatter-gather entry (address of the send buffer, length
`BUFFER_SIZE`, local key of the send memory region); the text stored in the send buffer,
terminator included, takes at most `BUFFER_SIZE` bytes and the buffer keeps its size; the
handler returns 0 when the post is accepted, and never returns anything else. -/
theorem on_connection_posts_one_send (w : World) (context : Nat) (c : Connection)
    (blk : List Nat)
    (h0 : context ≠ 0) (hc : heap_get context w.conns = some c)
    (hs : c.send_region ≠ 0) (hb : heap_get c.send_region w.bufs = some blk)
    (hlen : blk.length = BUFFER_SIZE) (hmr : c.send_mr ≠ 0) :
    calls (on_connection context w).world.trace = calls w.trace ++
      [.ibv_post_send c.qp
        ⟨0, 0, ⟨c.send_region, BUFFER_SIZE, w.mock.lkey c.send_mr⟩, 1, IBV_WR_SEND,
          IBV_SEND_SIGNALED⟩] ∧
    (∃ text rest : List Nat,
      heap_get c.send_region (on_connection context w).world.bufs = some (text ++ rest) ∧
      text = (pid_message w.mock.pid).take (BUFFER_SIZE - 1) ++ [0] ∧
      text.length ≤ BUFFER_SIZE ∧ (text ++ rest).length = BUFFER_SIZE) ∧
    (w.mock.status (w.trace.length + 1) = 0 → (on_connection context w).value = some 0) ∧
    (∀ r, (on_connection context w).value = some r → r = 0) := by
  have hout : ((pid_message w.mock.pid).take (BUFFER_SIZE - 1) ++ [0]).length ≤ BUFFER_SIZE := by
    simp only [List.length_append, List.length_take, List.length_singleton, BUFFER_SIZE]
    omega
  have hnot : ¬ blk.length < ((pid_message w.mock.pid).take (BUFFER_SIZE - 1)).length + 1 := by
    simp only [List.length_append, List.length_singleton] at hout
    rw [hlen]; omega
  have hbs : BUFFER_SIZE ≠ 0 := by decide
  by_cases hst : w.mock.status (w.trace.length + 1) = 0
  · simp only [on_connection, log, conn_read, getpid, snprintf, print, mr_lkey, TEST_NZ, call,
      die, bind_apply, pure_apply, Outcome.bind_ret, M.ite_apply, h0, hc, hs, hb, hmr, hbs,
      hnot, if_false, List.length_append, List.length_singleton, hst, ne_eq,
      not_true_eq_false, Outcome.world_ret, value_ret, calls_append, calls, heap_get_set,
      Option.map_some']
    refine ⟨by simp, ⟨_, _, rfl, rfl, hout, ?_⟩, fun _ => trivial, fun r hr => ?_⟩
    · simp only [List.length_drop, List.length_append, List.length_singleton] at hout hnot ⊢
      omega
    · simp only [Option.some.injEq] at hr; exact hr.symm
  · simp only [on_connection, log, conn_read, getpid, snprintf, print, mr_lkey, TEST_NZ, call,
      die, bind_apply, pure_apply, Outcome.bind_ret, Outcome.bind_exit, M.ite_apply, h0, hc,
      hs, hb, hmr, hbs,
      hnot, if_false, if_true, List.length_append, List.length_singleton, hst, ne_eq,
      not_false_eq_true, Outcome.world_exit, value_exit, calls_append, calls, heap_get_set,
      Option.map_some']
    refine ⟨by simp, ⟨_, _, rfl, rfl, hout, ?_⟩, fun h => h.elim, fun r hr => ?_⟩
    · simp only [List.length_drop, List.length_append, List.length_singleton] at hout hnot ⊢
      omega
    · cases hr

theorem on_connection_posts_one_send_witness :
    calls (on_connection 50 one_connection).world.trace = calls one_connection.trace ++
      [.ibv_post_send 9 ⟨0, 0, ⟨70, BUFFER_SIZE, one_connection.mock.lkey 12⟩, 1, IBV_WR_SEND,
        IBV_SEND_SIGNALED⟩] ∧
    (∃ text rest : List Nat,
      heap_get 70 (on_connection 50 one_connection).world.bufs = some (text ++ rest) ∧
      text = (pid_message one_connection.mock.pid).take (BUFFER_SIZE - 1) ++ [0] ∧
      text.length ≤ BUFFER_SIZE ∧ (text ++ rest).length = BUFFER_SIZE) ∧
    (one_connection.mock.status (one_connection.trace.length + 1) = 0 →
      (on_connection 50 one_connection).value = some 0) ∧
    (∀ r, (on_connection 50 one_connection).value = some r → r = 0) :=
  on_connection_posts_one_send one_connection 50 ⟨9, 11, 12, 60, 70⟩
    (List.replicate BUFFER_SIZE 0) (by decide) (by decide!) (by decide) (by decide!)
    (by decide!) (by decide)

/-! ## Completions handled to their end -/

/-- A completion that `on_completion` handles to its end in one state has status success,
and is handled to its end in every state with the same Connections and buffers: the record
of the entry and the printed lines are added, nothing else changes. -/
theorem on_completion_ret (wc : Wc) (w : World) (h : (on_completion wc w).returned = true) :
    wc.status = IBV_WC_SUCCESS ∧
    ∃ out : List Printed, ∀ w2 : World, w2.conns = w.conns → w2.bufs = w.bufs →
      on_completion wc w2 = .ret ()
        { w2 with trace := w2.trace ++ [.enter (.on_completion wc)]
                  stdout := w2.stdout ++ out } := by
  by_cases hst : wc.status = IBV_WC_SUCCESS
  · refine ⟨hst, ?_⟩
    by_cases hop : wc.opcode &&& IBV_WC_RECV = 0
    · by_cases hs : wc.opcode = IBV_WC_SEND
      · have hz : IBV_WC_SEND &&& IBV_WC_RECV = 0 := by decide
        exact ⟨[.line "send completed successfully."], fun w2 _ _ => by
          simp [on_completion, log, print, hst, hs, hz]⟩
      · exact ⟨[], fun w2 _ _ => by simp [on_completion, log, print, hst, hop, hs]⟩
    · by_cases h0 : wc.wr_id = 0
      · simp [on_completion, log, conn_read, hst, hop, h0] at h
      · cases hc : heap_get wc.wr_id w.conns with
        | none => simp [on_completion, log, conn_read, hst, hop, h0, hc] at h
        | some c =>
          by_cases hr : c.recv_region = 0
          · simp [on_completion, log, conn_read, read_string, hst, hop, h0, hc, hr] at h
          · cases hb : heap_get c.recv_region w.bufs with
            | none =>
              simp [on_completion, log, conn_read, read_string, hst, hop, h0, hc, hr, hb] at h
            | some blk =>
              cases hs : cstr blk with
              | none =>
                simp [on_completion, log, conn_read, read_string, hst, hop, h0, hc, hr, hb,
                  hs] at h
              | some s =>
                exact ⟨[.received s], fun w2 e1 e2 => by
                  simp [on_completion, log, conn_read, read_string, print, hst, hop, h0, e1,
                    e2, hc, hr, hb, hs]⟩
  · simp [on_completion, log, die, hst] at h

/-- A drain of ready completions, each one handled to its end by `on_completion` in this
state: the drain runs to its end and adds the whole expected trace. -/
theorem drain_returns (cq : Nat) (cs : List Wc) (w : World)
    (h : ∀ c ∈ cs, (on_completion c w).returned = true) :
    ∀ w2 : World, w2.conns = w.conns → w2.bufs = w.bufs →
      (drain cq (cs.map (fun c => ((1 : Int), c))) w2).returned = true ∧
      (drain cq (cs.map (fun c => ((1 : Int), c))) w2).world.trace =
        w2.trace ++ polled cq cs := by
  induction cs with
  | nil =>
    intro w2 _ _
    simp [drain, log, polled]
  | cons c cs ih =>
    intro w2 e1 e2
    have h10 : ¬ ((1 : Int) = 0) := by decide
    obtain ⟨-, out, ho⟩ := on_completion_ret c w (h c (List.mem_cons_self _ _))
    have ih2 := ih (fun d hd => h d (List.mem_cons_of_mem _ hd))
      { w2 with trace := w2.trace ++ [.call (.ibv_poll_cq cq 1) 1] ++ [.enter (.on_completion c)]
                stdout := w2.stdout ++ out } e1 e2
    simp only [List.map_cons, drain, log, bind_apply, Outcome.bind_ret, M.ite_apply, h10,
      if_false]
    rw [ho { w2 with trace := w2.trace ++ [.call (.ibv_poll_cq cq 1) 1] } e1 e2]
    simp only [Outcome.bind_ret]
    refine ⟨ih2.1, ?_⟩
    rw [ih2.2]
    simp [polled]

/-! ## Failed completions and dispatch -/

/-- A block that holds a zero byte holds a C string. -/
theorem cstr_of_mem (blk : List Nat) (h : 0 ∈ blk) : ∃ s, cstr blk = some s := by
  induction blk with
  | nil => cases h
  | cons b bs ih =>
    by_cases hb : b = 0
    · exact ⟨[], by simp [cstr, hb]⟩
    · have hm : 0 ∈ bs := by
        rcases List.mem_cons.1 h with h1 | h1
        · exact absurd h1.symm hb
        · exact h1
      obtain ⟨s, hs⟩ := ih hm
      exact ⟨b :: s, by simp [cstr, hb, hs]⟩

/-- C7 (the code does not keep to its second half): a work completion whose status is not
success, whatever its operation kind and identifier, makes `on_completion` end the process
with the non-zero status `EXIT_FAILURE` after a diagnostic, with nothing written to
standard output, and a drain that meets it ends there whatever follows in the queue.  A
completion whose status is success never ends the process through `exit`, and it is handled
to its end when it is not a receive, and when it is the receive of a live Connection whose
receive buffer holds a zero byte.  But the successful receive completion of a Connection
whose 1024-byte receive buffer holds no zero byte ends the run in a read past the end of
the buffer: `on_completion` does not return, nothing is delivered, and the completion
queued behind it is never polled. -/
theorem successful_completion_can_end_the_run :
    (∀ (wc : Wc) (w : World), wc.status ≠ IBV_WC_SUCCESS →
      on_completion wc w = .exit EXIT_FAILURE
        { w with trace := w.trace ++ [.enter (.on_completion wc)]
                 stderr := w.stderr ++ ["on_completion: status is not IBV_WC_SUCCESS."] } ∧
      ∀ (cq : Nat) (r : Int) (rest : List (Int × Wc)), r ≠ 0 →
        drain cq ((r, wc) :: rest) w = .exit EXIT_FAILURE
          { w with trace := w.trace ++ [.call (.ibv_poll_cq cq 1) r, .enter (.on_completion wc)]
                   stderr := w.stderr ++ ["on_completion: status is not IBV_WC_SUCCESS."] }) ∧
    (∀ (wc : Wc) (w : World), wc.status = IBV_WC_SUCCESS →
      (on_completion wc w).exited = false) ∧
    (∀ (wc : Wc) (w : World), wc.status = IBV_WC_SUCCESS → wc.opcode &&& IBV_WC_RECV = 0 →
      (on_completion wc w).returned = true) ∧
    (∀ (wc : Wc) (w : World) (c : Connection) (blk : List Nat),
      wc.status = IBV_WC_SUCCESS → wc.opcode &&& IBV_WC_RECV ≠ 0 → wc.wr_id ≠ 0 →
      heap_get wc.wr_id w.conns = some c → c.recv_region ≠ 0 →
      heap_get c.recv_region w.bufs = some blk → 0 ∈ blk →
      ∃ s, cstr blk = some s ∧ on_completion wc w = .ret ()
        { w with trace := w.trace ++ [.enter (.on_completion wc)]
                 stdout := w.stdout ++ [.received s] }) ∧
    (heap_get 50 unterminated.conns = some ⟨9, 11, 12, 60, 70⟩ ∧
      heap_get 60 unterminated.bufs = some (List.replicate BUFFER_SIZE 65) ∧
      (on_completion ⟨50, IBV_WC_SUCCESS, IBV_WC_RECV⟩ unterminated).returned = false ∧
      (on_completion ⟨50, IBV_WC_SUCCESS, IBV_WC_RECV⟩ unterminated).exited = false ∧
      (on_completion ⟨50, IBV_WC_SUCCESS, IBV_WC_RECV⟩ unterminated).fault_of =
        some (.overrun 60 BUFFER_SIZE) ∧
      (drain 2 [(1, ⟨50, IBV_WC_SUCCESS, IBV_WC_RECV⟩), (1, ⟨0, IBV_WC_SUCCESS, IBV_WC_SEND⟩)]
        unterminated).returned = false ∧
      (drain 2 [(1, ⟨50, IBV_WC_SUCCESS, IBV_WC_RECV⟩), (1, ⟨0, IBV_WC_SUCCESS, IBV_WC_SEND⟩)]
        unterminated).world.trace =
          [.call (.ibv_poll_cq 2 1) 1, .enter (.on_completion ⟨50, IBV_WC_SUCCESS, IBV_WC_RECV⟩)] ∧
      (drain 2 [(1, ⟨50, IBV_WC_SUCCESS, IBV_WC_RECV⟩), (1, ⟨0, IBV_WC_SUCCESS, IBV_WC_SEND⟩)]
        unterminated).world.stdout = []) ∧
    EXIT_FAILURE ≠ 0 := by
  refine ⟨fun wc w h => ⟨?_, fun cq r rest hr => ?_⟩, fun wc w h => ?_, fun wc w h hop => ?_,
    fun wc w c blk h hop h0 hc hr hb hz => ?_, by decide!, by decide⟩
  · simp [on_completion, log, die, h]
  · simp [drain, on_completion, log, die, h, hr]
  · cases ho : on_completion wc w with
    | ret a w1 => rfl
    | fault f w1 => rfl
    | blocked w1 => rfl
    | exit s w1 =>
      exfalso
      by_cases hop : wc.opcode &&& IBV_WC_RECV = 0
      · by_cases hs : wc.opcode = IBV_WC_SEND
        · have hz : IBV_WC_SEND &&& IBV_WC_RECV = 0 := by decide
          simp [on_completion, log, print, h, hs, hz] at ho
        · simp [on_completion, log, print, h, hop, hs] at ho
      · by_cases h0 : wc.wr_id = 0
        · simp [on_completion, log, conn_read, h, hop, h0] at ho
        · cases hc : heap_get wc.wr_id w.conns with
          | none => simp [on_completion, log, conn_read, h, hop, h0, hc] at ho
          | some c =>
            by_cases hr : c.recv_region = 0
            · simp [on_completion, log, conn_read, read_string, h, hop, h0, hc, hr] at ho
            · cases hb : heap_get c.recv_region w.bufs with
              | none =>
                simp [on_completion, log, conn_read, read_string, h, hop, h0, hc, hr, hb] at ho
              | some blk =>
                cases hs : cstr blk <;>
                simp [on_completion, log, conn_read, read_string, print, h, hop, h0, hc, hr, hb,
                  hs] at ho
  · by_cases hs : wc.opcode = IBV_WC_SEND
    · have hz : IBV_WC_SEND &&& IBV_WC_RECV = 0 := by decide
      simp [on_completion, log, print, h, hs, hz]
    · simp [on_completion, log, print, h, hop, hs]
  · obtain ⟨s, hs⟩ := cstr_of_mem blk hz
    exact ⟨s, hs, by
      simp [on_completion, log, conn_read, read_string, print, h, hop, h0, hc, hr, hb, hs]⟩

/-- C8: `on_event` hands a connection request to `on_connect_request` with the identity of
the event, an established event to `on_connection` with the context stored on the identity,
a disconnected event to `on_disconnect` with the identity; for every other kind it ends the
process with the non-zero status `EXIT_FAILURE` after a diagnostic and without entering a
handler; and the process ends with no handler entered exactly when the kind is none of the
three. -/
theorem on_event_dispatch (e : CmEvent) (w : World) :
    (e.event = RDMA_CM_EVENT_CONNECT_REQUEST → on_event e w = on_connect_request e.id w) ∧
    (e.event = RDMA_CM_EVENT_ESTABLISHED →
      on_event e w = on_connection (w.ids e.id).context w) ∧
    (e.event = RDMA_CM_EVENT_DISCONNECTED → on_event e w = on_disconnect e.id w) ∧
    ((e.event ≠ RDMA_CM_EVENT_CONNECT_REQUEST ∧ e.event ≠ RDMA_CM_EVENT_ESTABLISHED ∧
        e.event ≠ RDMA_CM_EVENT_DISCONNECTED) →
      on_event e w = .exit EXIT_FAILURE
        { w with stderr := w.stderr ++ ["on_event: unknown event."] }) ∧
    (((on_event e w).exited = true ∧ (on_event e w).world.trace = w.trace) ↔
      (e.event ≠ RDMA_CM_EVENT_CONNECT_REQUEST ∧ e.event ≠ RDMA_CM_EVENT_ESTABLISHED ∧
        e.event ≠ RDMA_CM_EVENT_DISCONNECTED)) ∧
    EXIT_FAILURE ≠ 0 := by
  refine ⟨on_event_connect_request e w, on_event_established e w, on_event_disconnected e w,
    fun h => on_event_unknown e w h.1 h.2.1 h.2.2, ⟨fun h => ?_, fun h => ?_⟩, by decide⟩
  · obtain ⟨-, ht⟩ := h
    refine ⟨fun hk => ?_, fun hk => ?_, fun hk => ?_⟩
    · rw [on_event_connect_request e w hk] at ht
      have := (enters_on_connect_request e.id).2 w
      rw [ht] at this; omega
    · rw [on_event_established e w hk] at ht
      have := (enters_on_connection (w.ids e.id).context).2 w
      rw [ht] at this; omega
    · rw [on_event_disconnected e w hk] at ht
      have := (enters_on_disconnect e.id).2 w
      rw [ht] at this; omega
  · rw [on_event_unknown e w h.1 h.2.1 h.2.2]
    exact ⟨rfl, rfl⟩

theorem on_event_dispatch_witness :
    on_event ⟨1, 77⟩ one_connection = .exit EXIT_FAILURE
        { one_connection with stderr := one_connection.stderr ++ ["on_event: unknown event."] } ∧
    on_event ⟨1, 10⟩ one_connection = on_disconnect 1 one_connection :=
  ⟨(on_event_dispatch ⟨1, 77⟩ one_connection).2.2.2.1 (by decide),
   (on_event_dispatch ⟨1, 10⟩ one_connection).2.2.1 (by decide)⟩

/-! ## Calls that add no failed event retrieval -/

/-- However it ends, `on_completion` adds to the trace the record of its entry and nothing else. -/
theorem on_completion_trace (wc : Wc) (w : World) :
    (on_completion wc w).world.trace = w.trace ++ [.enter (.on_completion wc)] := by
  by_cases h : wc.status = IBV_WC_SUCCESS
  · by_cases hop : wc.opcode &&& IBV_WC_RECV = 0
    · by_cases hs : wc.opcode = IBV_WC_SEND
      · have hz : IBV_WC_SEND &&& IBV_WC_RECV = 0 := by decide
        simp [on_completion, log, print, h, hs, hz]
      · simp [on_completion, log, print, h, hop, hs]
    · by_cases h0 : wc.wr_id = 0
      · simp [on_completion, log, conn_read, h, hop, h0]
      · cases hc : heap_get wc.wr_id w.conns with
        | none => simp [on_completion, log, conn_read, h, hop, h0, hc]
        | some c =>
          by_cases hr : c.recv_region = 0
          · simp [on_completion, log, conn_read, read_string, h, hop, h0, hc, hr]
          · cases hb : heap_get c.recv_region w.bufs with
            | none => simp [on_completion, log, conn_read, read_string, h, hop, h0, hc, hr, hb]
            | some blk =>
              cases hs : cstr blk <;>
              simp [on_completion, log, conn_read, read_string, print, h, hop, h0, hc, hr, hb,
                hs]
  · simp [on_completion, log, die, h]

/-- The trace of a drain of ready completions is an initial part of the trace the spec
asks for, and all of it when the drain returns. -/
theorem drain_trace (cq : Nat) (cs : List Wc) :
    ∀ w : World, ∃ t : List Entry,
      (drain cq (cs.map (fun c => ((1 : Int), c))) w).world.trace = w.trace ++ t ∧
      t <+: polled cq cs ∧
      ((drain cq (cs.map (fun c => ((1 : Int), c))) w).returned = true → t = polled cq cs) := by
  induction cs with
  | nil =>
    intro w
    exact ⟨[.call (.ibv_poll_cq cq 1) 0], by simp [drain, log], by simp [polled],
      fun _ => by simp [polled]⟩
  | cons c cs ih =>
    intro w
    have h10 : ¬ ((1 : Int) = 0) := by decide
    have ht := on_completion_trace c { w with trace := w.trace ++ [.call (.ibv_poll_cq cq 1) 1] }
    simp only [List.map_cons, drain, log, bind_apply, Outcome.bind_ret, M.ite_apply, h10,
      if_false]
    cases hoc : on_completion c { w with trace := w.trace ++ [.call (.ibv_poll_cq cq 1) 1] } with
    | ret u w2 =>
      rw [hoc] at ht
      simp only [Outcome.world_ret] at ht
      obtain ⟨t, h1, h2, h3⟩ := ih w2
      refine ⟨.call (.ibv_poll_cq cq 1) 1 :: .enter (.on_completion c) :: t, ?_, ?_, ?_⟩
      · simp only [Outcome.bind_ret]
        rw [h1, ht]; simp
      · simp only [polled, List.cons_prefix_cons, true_and]; exact h2
      · intro hr
        simp only [Outcome.bind_ret] at hr
        rw [h3 hr]; rfl
    | exit s w2 =>
      rw [hoc] at ht
      simp only [Outcome.world_exit] at ht
      exact ⟨[.call (.ibv_poll_cq cq 1) 1, .enter (.on_completion c)], by simp [ht],
        by simp [polled], fun hr => by simp at hr⟩
    | fault f w2 =>
      rw [hoc] at ht
      simp only [Outcome.world_fault] at ht
      exact ⟨[.call (.ibv_poll_cq cq 1) 1, .enter (.on_completion c)], by simp [ht],
        by simp [polled], fun hr => by simp at hr⟩
    | blocked w2 =>
      rw [hoc] at ht
      simp only [Outcome.world_blocked] at ht
      exact ⟨[.call (.ibv_poll_cq cq 1) 1, .enter (.on_completion c)], by simp [ht],
        by simp [polled], fun hr => by simp at hr⟩

/-- C10: in an iteration of the `poll_cq` loop with the completions `cs` ready, the calls are
in this order: get one completion-queue event, acknowledge exactly one event, request
notification again, and only then poll; each completion is polled and handed to
`on_completion` once, in queue order, and a last poll reports none ready (with no
completion ready the handler is not entered).  Whatever the calls return, the trace grows
by an initial part of that sequence, and by all of it when the iteration runs to its end;
and the iteration does run to its end, adding all of it, when the first and the third call
succeed and `on_completion` handles each completion to its end. -/
theorem poll_cq_iteration_order (w : World) (x : Context) (cs : List Wc)
    (hs : w.s_ctx = some x) :
    (∃ t : List Entry,
      (poll_cq_iteration (cs.map (fun c => ((1 : Int), c))) w).world.trace = w.trace ++ t ∧
      t <+: [.call (.ibv_get_cq_event x.comp_channel) (w.mock.status w.trace.length),
             .call (.ibv_ack_cq_events (w.mock.handle w.trace.length) 1) 0,
             .call (.ibv_req_notify_cq (w.mock.handle w.trace.length) 0)
               (w.mock.status (w.trace.length + 2))] ++
            polled (w.mock.handle w.trace.length) cs ∧
      ((poll_cq_iteration (cs.map (fun c => ((1 : Int), c))) w).returned = true →
        t = [.call (.ibv_get_cq_event x.comp_channel) 0,
             .call (.ibv_ack_cq_events (w.mock.handle w.trace.length) 1) 0,
             .call (.ibv_req_notify_cq (w.mock.handle w.trace.length) 0) 0] ++
            polled (w.mock.handle w.trace.length) cs)) ∧
    (w.mock.status w.trace.length = 0 → w.mock.status (w.trace.length + 2) = 0 →
      (∀ c ∈ cs, (on_completion c w).returned = true) →
      (poll_cq_iteration (cs.map (fun c => ((1 : Int), c))) w).returned = true ∧
      (poll_cq_iteration (cs.map (fun c => ((1 : Int), c))) w).world.trace = w.trace ++
        ([.call (.ibv_get_cq_event x.comp_channel) 0,
          .call (.ibv_ack_cq_events (w.mock.handle w.trace.length) 1) 0,
          .call (.ibv_req_notify_cq (w.mock.handle w.trace.length) 0) 0] ++
         polled (w.mock.handle w.trace.length) cs)) := by
  refine ⟨?_, fun h1 h2 hc => ?_⟩
  · by_cases h1 : w.mock.status w.trace.length = 0
    · by_cases h2 : w.mock.status (w.trace.length + 2) = 0
      · obtain ⟨t, e1, e2, e3⟩ := drain_trace (w.mock.handle w.trace.length) cs
          { w with s_ctx := some x, trace := w.trace ++
              [.call (.ibv_get_cq_event x.comp_channel) 0,
               .call (.ibv_ack_cq_events (w.mock.handle w.trace.length) 1) 0,
               .call (.ibv_req_notify_cq (w.mock.handle w.trace.length) 0) 0] }
        refine ⟨[.call (.ibv_get_cq_event x.comp_channel) 0,
               .call (.ibv_ack_cq_events (w.mock.handle w.trace.length) 1) 0,
               .call (.ibv_req_notify_cq (w.mock.handle w.trace.length) 0) 0] ++ t, ?_, ?_, ?_⟩
        · simp [poll_cq_iteration, TEST_NZ_out, TEST_NZ, ctx_read, callo, callv, call, hs, h1,
            h2]
          simpa using e1
        · rw [h1, h2]
          exact (List.prefix_append_right_inj _).2 e2
        · intro hr
          simp [poll_cq_iteration, TEST_NZ_out, TEST_NZ, ctx_read, callo, callv, call, hs, h1,
            h2] at hr
          rw [e3 hr]
      · refine ⟨[.call (.ibv_get_cq_event x.comp_channel) 0,
               .call (.ibv_ack_cq_events (w.mock.handle w.trace.length) 1) 0,
               .call (.ibv_req_notify_cq (w.mock.handle w.trace.length) 0)
                 (w.mock.status (w.trace.length + 2))], ?_, ?_, ?_⟩
        · simp [poll_cq_iteration, TEST_NZ_out, TEST_NZ, ctx_read, callo, callv, call, die, hs,
            h1, h2]
        · rw [h1]; exact List.prefix_append _ _
        · intro hr
          simp [poll_cq_iteration, TEST_NZ_out, TEST_NZ, ctx_read, callo, callv, call, die, hs,
            h1, h2] at hr
    · refine ⟨[.call (.ibv_get_cq_event x.comp_channel) (w.mock.status w.trace.length)],
        ?_, ?_, ?_⟩
      · simp [poll_cq_iteration, TEST_NZ_out, ctx_read, callo, die, hs, h1]
      · simp
      · intro hr
        simp [poll_cq_iteration, TEST_NZ_out, ctx_read, callo, die, hs, h1] at hr
  · have hd := drain_returns (w.mock.handle w.trace.length) cs w hc
      { w with s_ctx := some x, trace := w.trace ++
          [.call (.ibv_get_cq_event x.comp_channel) 0,
           .call (.ibv_ack_cq_events (w.mock.handle w.trace.length) 1) 0,
           .call (.ibv_req_notify_cq (w.mock.handle w.trace.length) 0) 0] } rfl rfl
    simp [poll_cq_iteration, TEST_NZ_out, TEST_NZ, ctx_read, callo, callv, call, hs, h1, h2]
    simpa using hd

theorem poll_cq_iteration_order_witness :
    one_connection.mock.status one_connection.trace.length = 0 ∧
    one_connection.mock.status (one_connection.trace.length + 2) = 0 ∧
    (∀ c ∈ [(⟨50, 0, 0⟩ : Wc), ⟨50, 0, 128⟩], (on_completion c one_connection).returned = true) ∧
    (poll_cq_iteration ([⟨50, 0, 0⟩, ⟨50, 0, 128⟩].map (fun c => ((1 : Int), c)))
      one_connection).returned = true ∧
    (poll_cq_iteration ([⟨50, 0, 0⟩, ⟨50, 0, 128⟩].map (fun c => ((1 : Int), c)))
      one_connection).world.trace = one_connection.trace ++
        ([.call (.ibv_get_cq_event 3) 0, .call (.ibv_ack_cq_events 100 1) 0,
          .call (.ibv_req_notify_cq 100 0) 0] ++
         polled 100 [⟨50, 0, 0⟩, ⟨50, 0, 128⟩]) :=
  ⟨by decide, by decide, by decide!,
   (poll_cq_iteration_order one_connection ⟨7, 1, 2, 3, 4⟩ [⟨50, 0, 0⟩, ⟨50, 0, 128⟩]
     (by rfl)).2 (by decide) (by decide) (by decide!)⟩

end RdmaServer
